import Mathlib

/-!
Verification development for the smartclone-integration repository.

Shallow embedding of the two core subsystems:
* the capability-probing technology selector
  (`src/core/multiElasticResourceAllocation.ts`, class
  `MultiElasticResourceAllocation`),
* the encrypted hybrid storage engine with connector fan-out
  (`src/core/encryptedHybridStorage.ts`, `src/core/storageConnectors.ts`),
* the integration facade (`src/SmartCloneIntegration.ts`).

JavaScript dynamic values are modelled by `JsonValue`; the placeholder
encryption of the source (`'encrypted:' + JSON.stringify(data)` /
`JSON.parse` after stripping the tag) is modelled by an executable
serializer/deserializer pair over lists of characters that mirrors the
host `JSON.stringify` / `JSON.parse` pair on the fragment the source ever
produces (no whitespace, integer numbers, quote and backslash escapes).
-/

/-- A JavaScript/JSON value: the dynamic `any` payloads of the source.
Numbers are modelled as integers (the source never relies on fractional
payload numbers; floating point itself is not statable). -/
inductive JsonValue where
  | null : JsonValue
  | bool (b : Bool) : JsonValue
  | num (n : Int) : JsonValue
  | str (s : String) : JsonValue
  | arr (elems : List JsonValue) : JsonValue
  | obj (fields : List (String × JsonValue)) : JsonValue

namespace JsonValue

/-- JavaScript truthiness of a value (`Boolean(v)`). -/
def truthy : JsonValue → Bool
  | .null => false
  | .bool b => b
  | .num n => n != 0
  | .str s => s ≠ ""
  | .arr _ => true
  | .obj _ => true

/-- JavaScript property lookup `v[k]` on an object literal; anything that
is not an object yields `undefined`, modelled as `none`. -/
def getField : JsonValue → String → Option JsonValue
  | .obj fields, k => fields.lookup k
  | _, _ => none

/-- Truthiness of a possibly-`undefined` JavaScript value
(`Boolean(v && ...)` on a field access). -/
def truthyOpt : Option JsonValue → Bool
  | none => false
  | some v => truthy v

end JsonValue

/-! ## The serializer: `JSON.stringify` on the fragment the source emits -/

/-- The decimal digit character for `n < 10`. -/
def digitChar : Nat → Char
  | 0 => '0' | 1 => '1' | 2 => '2' | 3 => '3' | 4 => '4'
  | 5 => '5' | 6 => '6' | 7 => '7' | 8 => '8' | _ => '9'

/-- Decimal digits of a natural number, most significant first. -/
def natChars (n : Nat) : List Char :=
  if n < 10 then [digitChar n]
  else natChars (n / 10) ++ [digitChar (n % 10)]
decreasing_by exact Nat.div_lt_self (by omega) (by omega)

/-- Decimal rendering of an integer. -/
def intChars (i : Int) : List Char :=
  if i < 0 then '-' :: natChars i.natAbs else natChars i.natAbs

/-- JSON string escaping of one character (quote and backslash, the
escapes `JSON.stringify` emits for the strings the source handles). -/
def escapeChar (c : Char) : List Char :=
  if c = '"' ∨ c = '\\' then ['\\', c] else [c]

/-- JSON string escaping of a character list. -/
def escapeStr : List Char → List Char
  | [] => []
  | c :: cs => escapeChar c ++ escapeStr cs

mutual

/-- `JSON.stringify` of a value, as a character list (compact form, no
whitespace — exactly what `JSON.stringify(data)` produces). -/
def serializeV : JsonValue → List Char
  | .null => "null".data
  | .bool true => "true".data
  | .bool false => "false".data
  | .num i => intChars i
  | .str s => '"' :: (escapeStr s.data ++ ['"'])
  | .arr [] => ['[', ']']
  | .arr (v :: vs) => '[' :: (serializeV v ++ serArrRest vs)
  | .obj [] => ['{', '}']
  | .obj (f :: fs) => '{' :: (serFld f ++ serObjRest fs)

/-- Remaining array elements: `,e…,e]`. -/
def serArrRest : List JsonValue → List Char
  | [] => [']']
  | v :: vs => ',' :: (serializeV v ++ serArrRest vs)

/-- One object member: `"k":v`. -/
def serFld : String × JsonValue → List Char
  | (k, v) => '"' :: (escapeStr k.data ++ ('"' :: ':' :: serializeV v))

/-- Remaining object members: `,m…,m}`. -/
def serObjRest : List (String × JsonValue) → List Char
  | [] => ['}']
  | f :: fs => ',' :: (serFld f ++ serObjRest fs)

end

/-! ## The parser: `JSON.parse` on that fragment -/

/-- Is `c` a decimal digit (by code point)? -/
def isDigitC (c : Char) : Bool :=
  decide (48 ≤ c.toNat ∧ c.toNat ≤ 57)

/-- Parse a run of decimal digits into an accumulator; stops at the first
non-digit. Returns the value and the unconsumed remainder. -/
def parseDigits : List Char → Nat → Nat × List Char
  | [], acc => (acc, [])
  | c :: cs, acc =>
    if isDigitC c then parseDigits cs (acc * 10 + (c.toNat - 48))
    else (acc, c :: cs)

/-- Parse an optionally negated digit run. -/
def parseNum : List Char → Option (Int × List Char)
  | [] => none
  | c :: r =>
    if c = '-' then
      match r with
      | [] => none
      | c2 :: _ =>
        if isDigitC c2 then
          let p := parseDigits r 0
          some (-(p.1 : Int), p.2)
        else none
    else if isDigitC c then
      let p := parseDigits (c :: r) 0
      some ((p.1 : Int), p.2)
    else none

/-- Parse a string body after the opening quote, undoing `escapeChar`;
returns the content and the remainder after the closing quote. -/
def parseStrBody : List Char → Option (List Char × List Char)
  | [] => none
  | c :: cs =>
    if c = '"' then some ([], cs)
    else if c = '\\' then
      match cs with
      | [] => none
      | c2 :: cs2 => (parseStrBody cs2).map (fun p => (c2 :: p.1, p.2))
    else (parseStrBody cs).map (fun p => (c :: p.1, p.2))

/-- The three fueled parsers (value, array elements, object members),
bundled so the recursion is structural on the fuel: recursive descent
with no whitespace, mirroring `JSON.parse` on the serializer's output. -/
def parsers : Nat →
    (List Char → Option (JsonValue × List Char)) ×
    (List Char → Option (List JsonValue × List Char)) ×
    (List Char → Option (List (String × JsonValue) × List Char))
  | 0 => (fun _ => none, fun _ => none, fun _ => none)
  | m + 1 =>
    let P := parsers m
    ( fun cs =>
        match cs with
        | [] => none
        | c :: r =>
          if c = 'n' then
            match r with
            | 'u' :: 'l' :: 'l' :: r2 => some (.null, r2)
            | _ => none
          else if c = 't' then
            match r with
            | 'r' :: 'u' :: 'e' :: r2 => some (.bool true, r2)
            | _ => none
          else if c = 'f' then
            match r with
            | 'a' :: 'l' :: 's' :: 'e' :: r2 => some (.bool false, r2)
            | _ => none
          else if c = '"' then
            (parseStrBody r).map (fun p => (.str (String.mk p.1), p.2))
          else if c = '[' then
            if r.head? = some ']' then some (.arr [], r.tail)
            else (P.2.1 r).map (fun p => (.arr p.1, p.2))
          else if c = '{' then
            if r.head? = some '}' then some (.obj [], r.tail)
            else (P.2.2 r).map (fun p => (.obj p.1, p.2))
          else
            (parseNum (c :: r)).map (fun p => (.num p.1, p.2)),
      fun cs =>
        (P.1 cs).bind (fun vr =>
          if vr.2.head? = some ',' then
            (P.2.1 vr.2.tail).map (fun p => (vr.1 :: p.1, p.2))
          else if vr.2.head? = some ']' then some ([vr.1], vr.2.tail)
          else none),
      fun cs =>
        if cs.head? = some '"' then
          (parseStrBody cs.tail).bind (fun kr =>
            if kr.2.head? = some ':' then
              (P.1 kr.2.tail).bind (fun vr =>
                if vr.2.head? = some ',' then
                  (P.2.2 vr.2.tail).map (fun p => ((String.mk kr.1, vr.1) :: p.1, p.2))
                else if vr.2.head? = some '}' then some ([(String.mk kr.1, vr.1)], vr.2.tail)
                else none)
            else none)
        else none )

/-- The fueled JSON value parser. -/
def parseV (fuel : Nat) (cs : List Char) : Option (JsonValue × List Char) :=
  (parsers fuel).1 cs

/-- Parse the elements of a nonempty array after the opening bracket,
consuming the closing bracket. -/
def parseElems (fuel : Nat) (cs : List Char) :
    Option (List JsonValue × List Char) :=
  (parsers fuel).2.1 cs

/-- Parse the members of a nonempty object after the opening brace,
consuming the closing brace. -/
def parseFields (fuel : Nat) (cs : List Char) :
    Option (List (String × JsonValue) × List Char) :=
  (parsers fuel).2.2 cs

/-- `JSON.parse` of a full character list; fails on trailing garbage, as
the host function throws there. -/
def jsonParseL (cs : List Char) : Option JsonValue :=
  match parseV (2 * cs.length + 1) cs with
  | some (v, []) => some v
  | _ => none

/-! ## The placeholder encryption pair of `encryptedHybridStorage.ts` -/

/-- The literal tag `'encrypted:'` as characters. -/
def encTagL : List Char := "encrypted:".data

/-- `encrypt(data, key)` of the source: the string
`'encrypted:' + JSON.stringify(data)` (a JavaScript string value). -/
def encryptV (v : JsonValue) : JsonValue :=
  .str (String.mk (encTagL ++ serializeV v))

/-- `decrypt(encryptedData, key)` of the source: strip the tag and
`JSON.parse` the remainder (`none` models the parse throwing), otherwise
return the string unchanged. -/
def decryptS (s : String) : Option JsonValue :=
  if encTagL.isPrefixOf s.data then jsonParseL (s.data.drop 10)
  else some (.str s)

/-! ## Technology selector (`MultiElasticResourceAllocation`) -/

/-- One entry of the `technologyStack` configuration. -/
structure TechnologyConfig where
  priority : Nat
  requires : List String
  models : List String
  capabilities : List String
deriving DecidableEq

/-- The statically configured technology descriptors, in declaration
order (`Object.entries` enumerates insertion order). -/
def technologyStack : List (String × TechnologyConfig) :=
  [ ("transformers",
      { priority := 1, requires := ["webassembly"],
        models := ["Xenova/gpt2", "Xenova/distilgpt2"],
        capabilities := ["text-generation", "conversation"] }),
    ("webllm",
      { priority := 2, requires := ["webgpu"],
        models := ["Llama-3.1-8B-Instruct-q4f16_1", "Phi-3-mini-4k-instruct-q4f16_1"],
        capabilities := ["text-generation", "conversation", "reasoning"] }),
    ("tensorflow",
      { priority := 3, requires := ["webgl2", "webassembly"],
        models := ["universal-sentence-encoder", "mobilenet"],
        capabilities := ["text-analysis", "classification"] }),
    ("onnx",
      { priority := 4, requires := ["webassembly"],
        models := ["distilbert-base-uncased", "gpt2"],
        capabilities := ["text-analysis", "basic-generation"] }) ]

/-- A capability set: dynamic field lookup on the (normalized) device
capabilities record, `Boolean(capabilities[requirement])`. -/
abbrev CapabilitySet := String → Bool

/-- `meetsRequirements`: every required flag is truthy. -/
def meetsRequirements (caps : CapabilitySet) (reqs : List String) : Bool :=
  reqs.all caps

/-- Outcome of one benchmark probe attempt (the `test*` call together
with its wall-clock measurement): it either threw, or completed with the
measured latency in milliseconds. -/
inductive ProbeOutcome where
  | threw : ProbeOutcome
  | completed (latencyMs : Nat) : ProbeOutcome

/-- A deterministic oracle giving each (technology, model) probe's
outcome. -/
abbrev ProbeOracle := String → String → ProbeOutcome

/-- The technologies `benchmarkTechnology`'s switch dispatches on; any
other name falls to `default: return false`. -/
def knownTechs : List String := ["transformers", "tensorflow", "onnx", "webllm"]

/-- The benchmark record: technology name → last-observed probe latency
(a JavaScript `Map`, insertion-ordered, set-overwrites). -/
abbrev BenchMap := List (String × Nat)

/-- `Map.prototype.set`: overwrite in place or append. -/
def bmSet : BenchMap → String → Nat → BenchMap
  | [], k, v => [(k, v)]
  | (k', v') :: rest, k, v =>
    if k' = k then (k, v) :: rest else (k', v') :: bmSet rest k v

/-- `Map.prototype.get`. -/
def bmGet : BenchMap → String → Option Nat
  | [], _ => none
  | (k', v') :: rest, k => if k' = k then some v' else bmGet rest k

/-- `benchmarkTechnology(tech, modelId)`: dispatch the probe; on a throw
return failure with the record untouched; on completion record the load
time and report success exactly when it is below 30000 ms. -/
def benchmarkTechnology (probe : ProbeOracle) (tech modelId : String) (bm : BenchMap) :
    Bool × BenchMap :=
  if tech ∈ knownTechs then
    match probe tech modelId with
    | .threw => (false, bm)
    | .completed lat => (decide (lat < 30000), bmSet bm tech lat)
  else (false, bm)

/-- Round to two decimals: `Number(x.toFixed(2))` on the nonnegative
values this code produces. -/
def round2 (q : ℚ) : ℚ := (⌊q * 100 + 1 / 2⌋ : ℚ) / 100

/-- `calculateConfidence(priority, benchmark)`. -/
def calculateConfidence (priority : Nat) (benchmark : Option Nat) : ℚ :=
  let base : ℚ := max (1 / 10) (1 - ((benchmark.getD 30000 : Nat) : ℚ) / 60000)
  let priorityBoost : ℚ := max 0 (((5 : ℚ) - (priority : ℚ)) * (1 / 10))
  min 1 (round2 (base + priorityBoost))

/-- A selection result (`MultiElasticRecommendation`). -/
structure Recommendation where
  technology : String
  model : String
  capability : String
  fallbacks : List String
  confidence : ℚ
deriving DecidableEq

/-- The cloud sentinel returned when every candidate is exhausted. -/
def cloudSentinel (reqCap : String) : Recommendation :=
  { technology := "cloud", model := "api-fallback", capability := reqCap,
    fallbacks := [], confidence := 0 }

/-- The filtered, priority-sorted candidate list (`suitableTechs`):
keep descriptors listing the required capability, sort ascending by
priority (a stable sort, as JavaScript's comparator sort). -/
def suitableTechs (stack : List (String × TechnologyConfig)) (reqCap : String) :
    List (String × TechnologyConfig) :=
  List.insertionSort (fun a b => a.2.priority ≤ b.2.priority)
    (stack.filter (fun tc => decide (reqCap ∈ tc.2.capabilities)))

/-- The candidate loop of `selectOptimalTechnology`. Returns the
recommendation, the final benchmark record, and the chronological log of
probes that were actually attempted (tech, modelId). -/
def selLoop (probe : ProbeOracle) (caps : CapabilitySet) (reqCap : String) :
    List (String × TechnologyConfig) → BenchMap →
    Recommendation × BenchMap × List (String × String)
  | [], bm => (cloudSentinel reqCap, bm, [])
  | (tech, cfg) :: rest, bm =>
    if meetsRequirements caps cfg.requires then
      let modelId := cfg.models.headD ""
      let r := benchmarkTechnology probe tech modelId bm
      if r.1 then
        ({ technology := tech, model := modelId, capability := reqCap,
           fallbacks := cfg.models.drop 1,
           confidence := calculateConfidence cfg.priority (bmGet r.2 tech) }, r.2,
          [(tech, modelId)])
      else
        let s := selLoop probe caps reqCap rest r.2
        (s.1, s.2.1, (tech, modelId) :: s.2.2)
    else selLoop probe caps reqCap rest bm

/-- `selectOptimalTechnology` over an arbitrary configured stack. -/
def selectOptimalTechnologyFrom (stack : List (String × TechnologyConfig))
    (probe : ProbeOracle) (caps : CapabilitySet) (reqCap : String) (bm : BenchMap) :
    Recommendation × BenchMap × List (String × String) :=
  selLoop probe caps reqCap (suitableTechs stack reqCap) bm

/-- `selectOptimalTechnology(query, capabilities, requiredCapability)`
on the statically configured stack (the query string is unused by the
source's selection logic). -/
def selectOptimalTechnology (probe : ProbeOracle) (caps : CapabilitySet)
    (reqCap : String) (bm : BenchMap) :
    Recommendation × BenchMap × List (String × String) :=
  selectOptimalTechnologyFrom technologyStack probe caps reqCap bm

/-- One call of the selector, for reasoning about call sequences. -/
structure SelectorCall where
  probe : ProbeOracle
  caps : CapabilitySet
  reqCap : String

/-- A sequence of `selectOptimalTechnology` calls against one instance:
threads the benchmark record through and concatenates the probe logs. -/
def runCalls : List SelectorCall → BenchMap → BenchMap × List (String × String)
  | [], bm => (bm, [])
  | c :: cs, bm =>
    let s := selectOptimalTechnology c.probe c.caps c.reqCap bm
    let r := runCalls cs s.2.1
    (r.1, s.2.2 ++ r.2)

/-! ## Integration facade (`SmartCloneIntegration.initializeAI`) -/

/-- Observable provider-adapter interactions of one `initializeAI` run. -/
inductive FacadeEvent where
  | createdProvider (tech : String) : FacadeEvent
  | initAttempt (modelId : String) : FacadeEvent
deriving DecidableEq

/-- Behaviour of a provider adapter: for each model id, `initialize`
either throws, or returns its success flag together with the value
`isReady()` reports afterwards. -/
structure ProviderModel where
  initOutcome : String → Except String (Bool × Bool)

/-- The primary-then-fallbacks initialization attempts on one provider
instance. -/
def tryModels (p : ProviderModel) : List String → Except String String × List FacadeEvent
  | [] => (.error "All AI initialization attempts failed", [])
  | m :: ms =>
    match p.initOutcome m with
    | .error e => (.error e, [.initAttempt m])
    | .ok (succ, ready) =>
      if succ && ready then (.ok m, [.initAttempt m])
      else
        let r := tryModels p ms
        (r.1, .initAttempt m :: r.2)

/-- `initializeAI(requiredCapability)`: select a technology; fail
immediately on the cloud sentinel; otherwise construct the adapter and
try the primary model then each fallback in order. Returns the result
(the model that initialized, or the thrown message), the adapter events,
and the selector's benchmark record. -/
def initializeAI (probe : ProbeOracle) (caps : CapabilitySet)
    (providerFor : String → ProviderModel) (reqCap : String) (bm : BenchMap) :
    Except String String × List FacadeEvent × BenchMap :=
  let s := selectOptimalTechnology probe caps reqCap bm
  let rcm := s.1
  let bm2 := s.2.1
  if rcm.technology = "cloud" then
    (.error "No compatible on-device AI technology available", [], bm2)
  else if rcm.technology ∈ knownTechs then
    let p := providerFor rcm.technology
    let r := tryModels p (rcm.model :: rcm.fallbacks)
    (r.1, .createdProvider rcm.technology :: r.2, bm2)
  else
    (.error ("Unsupported AI technology: " ++ rcm.technology), [], bm2)

/-! ## Hybrid storage engine (`encryptedHybridStorage.ts`, `storageConnectors.ts`) -/

/-- The three in-memory store kinds. -/
inductive StoreType where
  | vector : StoreType
  | graph : StoreType
  | relational : StoreType
deriving DecidableEq

/-- The string name of a store type (used in generated ids). -/
def typeName : StoreType → String
  | .vector => "vector"
  | .graph => "graph"
  | .relational => "relational"

/-- `Array.isArray(data) && data.length > 0 && Array.isArray(data[0])`. -/
def isNestedArr : JsonValue → Bool
  | .arr (.arr _ :: _) => true
  | _ => false

/-- `typeof data === 'object'` (objects, arrays and `null` in
JavaScript). -/
def typeofObject : JsonValue → Bool
  | .obj _ => true
  | .arr _ => true
  | .null => true
  | _ => false

/-- `typeof data === 'object' && data && data.nodes && data.edges`. -/
def isGraphObj (d : JsonValue) : Bool :=
  typeofObject d && d.truthy &&
    JsonValue.truthyOpt (d.getField "nodes") && JsonValue.truthyOpt (d.getField "edges")

/-- The `'auto'` type-inference rule of `store`. -/
def inferType (d : JsonValue) : StoreType :=
  if isNestedArr d then .vector
  else if isGraphObj d then .graph
  else .relational

/-- One entry of an in-memory store. -/
structure StoreItem where
  id : String
  data : JsonValue
  metadata : JsonValue
  timestamp : Nat

/-- `Map.prototype.set` on a string-keyed association list. -/
def alSet {β : Type} : List (String × β) → String → β → List (String × β)
  | [], k, v => [(k, v)]
  | (k', v') :: rest, k, v =>
    if k' = k then (k, v) :: rest else (k', v') :: alSet rest k v

/-- `Map.prototype.get` on a string-keyed association list. -/
def alGet {β : Type} : List (String × β) → String → Option β
  | [], _ => none
  | (k', v') :: rest, k => if k' = k then some v' else alGet rest k

/-- The three in-memory stores of one storage instance. -/
structure HybridState where
  vectorStore : List (String × StoreItem)
  graphStore : List (String × StoreItem)
  relationalStore : List (String × StoreItem)

/-- The empty storage state. -/
def emptyState : HybridState := ⟨[], [], []⟩

/-- Options accepted by `store`. -/
structure StoreOptions where
  type : Option StoreType := none
  metadata : JsonValue := .obj []
  syncTargets : Option (List String) := none
  skipSync : Bool := false
  awaitSync : Option Bool := none

/-- The payload handed to connectors (`StorageSyncPayload`). -/
structure StorageSyncPayload where
  id : String
  type : StoreType
  data : JsonValue
  metadata : JsonValue
  timestamp : Nat
  hasStoreOptions : Bool

/-- What a connector's `store` returns on normal completion
(`StorageConnectorResult`, minus the opaque `raw`). -/
structure ConnectorStoreResult where
  success : Bool
  location : Option String := none
  error : Option String := none

/-- A connector's `retrieve` argument. -/
structure RetrieveRef where
  id : String
  type : Option StoreType

/-- A connector's `retrieve` result (`StorageRetrieveResult`). -/
structure RetrieveResult where
  id : String
  type : StoreType
  data : JsonValue
  metadata : JsonValue
  timestamp : Option Nat

/-- An initialized connector: its identity, `autoSync` flag, and the
behaviour of its operations (`.error` models a thrown rejection). -/
structure StorageConnector where
  id : String
  autoSync : Bool
  store : StorageSyncPayload → Except String ConnectorStoreResult
  retrieve : Option (RetrieveRef → Except String (Option RetrieveResult)) := none

/-- One per-connector fan-out outcome (`ConnectorSyncResult`). -/
structure ConnectorSyncResult where
  providerId : String
  success : Bool
  error : Option String := none
  location : Option String := none
deriving DecidableEq

/-- `syncPayloadAcrossConnectors(payload, connectors, targets?)`: pick
the targeted connectors (explicit nonempty target list, else `autoSync`),
invoke each one's `store`, catching its throw into a per-connector
failure record; `Promise.all` over already-caught operations, so the
fan-out itself never rejects. -/
def syncPayloadAcrossConnectors (payload : StorageSyncPayload)
    (connectors : List StorageConnector) (targets : Option (List String)) :
    List ConnectorSyncResult :=
  if connectors.isEmpty then []
  else
    (connectors.filter (fun c =>
      match targets with
      | some ts => if ts.isEmpty then c.autoSync else ts.contains c.id
      | none => c.autoSync)).map (fun c =>
        match c.store payload with
        | .ok r =>
          { providerId := c.id, success := r.success, error := r.error,
            location := r.location }
        | .error e =>
          { providerId := c.id, success := false, error := some e, location := none })

/-- The connectors `syncPayloadAcrossConnectors` targets. -/
def targetedConnectors (connectors : List StorageConnector)
    (targets : Option (List String)) : List StorageConnector :=
  connectors.filter (fun c =>
    match targets with
    | some ts => if ts.isEmpty then c.autoSync else ts.contains c.id
    | none => c.autoSync)

/-- Static configuration of one storage instance: encryption level,
whether an encryption key was actually generated (`encryptionKey`
non-null — WebCrypto present and level not `'none'`), the built
connectors, and the sync-policy defaults. -/
structure StorageConfig where
  encryptionLevel : String := "metadata"
  hasKey : Bool := false
  connectors : List StorageConnector := []
  awaitSyncByDefault : Bool := false
  defaultSyncTargets : List String := []

/-- Result of one `store` call: the returned id, the state after the
local insertion (and nothing else), the fan-out report when a fan-out was
dispatched (`none` when the dispatch was skipped entirely), and whether
`store` awaited the fan-out before resolving. -/
structure StoreOutcome where
  id : String
  state : HybridState
  syncReport : Option (List ConnectorSyncResult)
  awaited : Bool

/-- Insert an item into the store matching its type. -/
def putItem (st : HybridState) (t : StoreType) (id : String) (item : StoreItem) :
    HybridState :=
  match t with
  | .vector => { st with vectorStore := alSet st.vectorStore id item }
  | .graph => { st with graphStore := alSet st.graphStore id item }
  | .relational => { st with relationalStore := alSet st.relationalStore id item }

/-- The type `store` resolves for a payload: the explicit type, else the
`'auto'` inference. -/
def resolvedType (opts : StoreOptions) (data : JsonValue) : StoreType :=
  match opts.type with
  | some t => t
  | none => inferType data

/-- The id `store` generates from the resolved type, the timestamp and
the random suffix. -/
def storeId (t : StoreType) (now : Nat) (rand : String) : String :=
  typeName t ++ "_" ++ toString now ++ "_" ++ rand

/-- The payload body as held in memory: encrypted only at level `'full'`
with a key present. -/
def storedData (cfg : StorageConfig) (data : JsonValue) : JsonValue :=
  if cfg.hasKey ∧ cfg.encryptionLevel = "full" then encryptV data else data

/-- The metadata as held in memory: encrypted at level `'metadata'` or
`'full'` with a key present. -/
def storedMeta (cfg : StorageConfig) (md : JsonValue) : JsonValue :=
  if cfg.hasKey ∧ (cfg.encryptionLevel = "metadata" ∨ cfg.encryptionLevel = "full")
  then encryptV md else md

/-- `store(data, options)`: resolve the type (inference on `'auto'`),
generate the id from type, timestamp and random suffix, encrypt payload
and metadata per the encryption level, insert locally, then dispatch the
connector fan-out unless there are no connectors or `skipSync` is set;
`awaitSync` (defaulted by the store-wide flag) decides whether the
resolution waits for the settled fan-out. -/
def store (cfg : StorageConfig) (st : HybridState) (data : JsonValue)
    (opts : StoreOptions) (now : Nat) (rand : String) : StoreOutcome :=
  let dataType := resolvedType opts data
  let id := storeId dataType now rand
  let encryptedData := storedData cfg data
  let encryptedMetadata := storedMeta cfg opts.metadata
  let item : StoreItem := ⟨id, encryptedData, encryptedMetadata, now⟩
  let st2 := putItem st dataType id item
  if ¬cfg.connectors.isEmpty ∧ opts.skipSync = false then
    let payload : StorageSyncPayload :=
      ⟨id, dataType, encryptedData, encryptedMetadata, now, true⟩
    let syncTargets := opts.syncTargets.getD cfg.defaultSyncTargets
    let results := syncPayloadAcrossConnectors payload cfg.connectors
      (if syncTargets.isEmpty then none else some syncTargets)
    { id := id, state := st2, syncReport := some results,
      awaited := opts.awaitSync.getD cfg.awaitSyncByDefault }
  else
    { id := id, state := st2, syncReport := none,
      awaited := opts.awaitSync.getD cfg.awaitSyncByDefault }

/-- Where `retrieve` may look. -/
inductive RetrieveSource where
  | memory : RetrieveSource
  | connectors : RetrieveSource
  | all : RetrieveSource
deriving DecidableEq

/-- Options accepted by `retrieve`. -/
structure RetrieveOptions where
  type : Option StoreType := none
  source : RetrieveSource := .all
  connectors : Option (List String) := none

/-- What `retrieve` resolves with. -/
structure RetrievedItem where
  id : String
  data : JsonValue
  metadata : JsonValue
  timestamp : Nat

/-- Local lookup: the matching store when a type is given, else the three
stores in the fixed order vector, graph, relational (`||`-chained). -/
def getLocal (st : HybridState) (id : String) (t : Option StoreType) :
    Option StoreItem :=
  match t with
  | some .vector => alGet st.vectorStore id
  | some .graph => alGet st.graphStore id
  | some .relational => alGet st.relationalStore id
  | none =>
    ((alGet st.vectorStore id).orElse fun _ =>
      ((alGet st.graphStore id).orElse fun _ => alGet st.relationalStore id))

/-- The connector-order loop of `retrieve`: try each id in order, skip
unknown ids and connectors without `retrieve`, absorb thrown rejections
(logged), stop at the first connector returning a non-null result. -/
def connectorLookup (conns : List StorageConnector) (order : List String)
    (id : String) (t : Option StoreType) : Option RetrieveResult :=
  match order with
  | [] => none
  | cid :: restIds =>
    match conns.find? (fun c => c.id == cid) with
    | none => connectorLookup conns restIds id t
    | some c =>
      match c.retrieve with
      | none => connectorLookup conns restIds id t
      | some rf =>
        match rf ⟨id, t⟩ with
        | .error _ => connectorLookup conns restIds id t
        | .ok none => connectorLookup conns restIds id t
        | .ok (some r) => some r

/-- `retrieve(id, options)`: local lookup first; on a miss, the connector
chain when the source permits it, caching a hit back into the matching
store; decrypt data and metadata per the encryption level; a miss
everywhere throws the not-found condition. -/
def retrieve (cfg : StorageConfig) (st : HybridState) (id : String)
    (opts : RetrieveOptions) (now : Nat) :
    Except String (RetrievedItem × HybridState) :=
  let item0 := getLocal st id opts.type
  let found : Option (StoreItem × HybridState) :=
    match item0 with
    | some it => some (it, st)
    | none =>
      if opts.source = .memory then none
      else if ¬cfg.connectors.isEmpty ∧
          (opts.source = .connectors ∨ opts.source = .all) then
        let order := match opts.connectors with
          | some pcs => if pcs.isEmpty then cfg.connectors.map (·.id) else pcs
          | none => cfg.connectors.map (·.id)
        match connectorLookup cfg.connectors order id opts.type with
        | some r =>
          let localItem : StoreItem := ⟨r.id, r.data, r.metadata, r.timestamp.getD now⟩
          some (localItem, putItem st r.type r.id localItem)
        | none => none
      else none
  match found with
  | none => .error ("Item with id " ++ id ++ " not found")
  | some (item, st2) =>
    let dData : Except String JsonValue :=
      if cfg.hasKey ∧ cfg.encryptionLevel = "full" then
        match item.data with
        | .str s =>
          match decryptS s with
          | some v => .ok v
          | none => .error "JSON.parse threw during decrypt"
        | d => .ok d
      else .ok item.data
    let dMeta : Except String JsonValue :=
      if cfg.hasKey ∧ (cfg.encryptionLevel = "metadata" ∨ cfg.encryptionLevel = "full")
      then
        match item.metadata with
        | .str s =>
          match decryptS s with
          | some v => .ok v
          | none => .error "JSON.parse threw during decrypt"
        | d => .ok d
      else .ok item.metadata
    match dData, dMeta with
    | .ok d, .ok m => .ok (⟨item.id, d, m, item.timestamp⟩, st2)
    | .error e, _ => .error e
    | _, .error e => .error e

/-- `sync(id, targets?)`: with no connectors, resolve with `[]` at once;
otherwise look the id up across the three stores, throw the not-found
condition on a miss, and fan the local copy out. -/
def syncOp (cfg : StorageConfig) (st : HybridState) (id : String)
    (targets : Option (List String)) : Except String (List ConnectorSyncResult) :=
  if cfg.connectors.isEmpty then .ok []
  else
    match ((alGet st.vectorStore id).orElse fun _ =>
        ((alGet st.graphStore id).orElse fun _ => alGet st.relationalStore id)) with
    | none =>
      .error ("Item with id " ++ id ++ " not found in local storage for synchronisation")
    | some item =>
      let t : StoreType :=
        if (alGet st.vectorStore id).isSome then .vector
        else if (alGet st.graphStore id).isSome then .graph
        else .relational
      let payload : StorageSyncPayload :=
        ⟨id, t, item.data, item.metadata, item.timestamp, false⟩
      .ok (syncPayloadAcrossConnectors payload cfg.connectors
        (match targets with
         | some ts => if ts.isEmpty then none else some ts
         | none => none))

/-! ## Auxiliary predicates used by the statements -/

/-- The continuation after a serialized number must not begin with a
digit (inside serialized documents it begins with `,`, `]`, `}` or is
empty). -/
def NumDelim : List Char → Prop
  | [] => True
  | c :: _ => ¬(48 ≤ c.toNat ∧ c.toNat ≤ 57)

/-- The possible first characters of a serialized value. -/
def JHead (c : Char) : Prop :=
  c = 'n' ∨ c = 't' ∨ c = 'f' ∨ c = '"' ∨ c = '[' ∨ c = '{' ∨ c = '-' ∨
    (48 ≤ c.toNat ∧ c.toNat ≤ 57)

/-- A probe of `tech` with `modelId` counts as successful: the dispatch
knows the technology, the test completed without throwing, and the
measured latency is below the 30000 ms ceiling. -/
def probeSuccessful (probe : ProbeOracle) (tech modelId : String) : Prop :=
  tech ∈ knownTechs ∧ ∃ lat, probe tech modelId = .completed lat ∧ lat < 30000

/-- A probe of `tech` completed without throwing (whatever its latency). -/
def probeCompleted (probe : ProbeOracle) (tech modelId : String) : Prop :=
  tech ∈ knownTechs ∧ ∃ lat, probe tech modelId = .completed lat

/-! # Theorems

## Round trip of the serializer/parser pair -/

theorem string_mk_data (s : String) : String.mk s.data = s := by
  cases s
  rfl

theorem digitChar_toNat (d : Nat) (h : d < 10) : (digitChar d).toNat = 48 + d := by
  interval_cases d <;> rfl

theorem isDigitC_digitChar (d : Nat) (h : d < 10) : isDigitC (digitChar d) = true := by
  interval_cases d <;> rfl

theorem natChars_head (n : Nat) :
    ∃ c t, natChars n = c :: t ∧ 48 ≤ c.toNat ∧ c.toNat ≤ 57 := by
  induction n using Nat.strong_induction_on with
  | _ n ih =>
    rw [natChars]
    by_cases h : n < 10
    · exact ⟨digitChar n, [], by simp [h], by rw [digitChar_toNat n h]; omega,
        by rw [digitChar_toNat n h]; omega⟩
    · obtain ⟨c, t, hct, h1, h2⟩ := ih (n / 10) (Nat.div_lt_self (by omega) (by omega))
      exact ⟨c, t ++ [digitChar (n % 10)], by simp [h, hct], h1, h2⟩

theorem parseDigits_stop (rest : List Char) (acc : Nat) (h : NumDelim rest) :
    parseDigits rest acc = (acc, rest) := by
  cases rest with
  | nil => rfl
  | cons c cs =>
    have : isDigitC c = false := by
      simp only [NumDelim] at h
      simp [isDigitC]
      omega
    simp [parseDigits, this]

theorem parseDigits_natChars (n : Nat) :
    ∀ acc rest, parseDigits (natChars n ++ rest) acc =
      parseDigits rest (acc * 10 ^ (natChars n).length + n) := by
  induction n using Nat.strong_induction_on with
  | _ n ih =>
    intro acc rest
    rw [natChars]
    by_cases h : n < 10
    · simp only [h, if_true, List.singleton_append, List.length_singleton]
      rw [parseDigits, if_pos (isDigitC_digitChar n h), digitChar_toNat n h]
      congr 1
      omega
    · simp only [h, if_false, List.append_assoc, List.singleton_append,
        List.length_append, List.length_singleton]
      rw [ih (n / 10) (Nat.div_lt_self (by omega) (by omega)) acc
        (digitChar (n % 10) :: rest)]
      rw [parseDigits, if_pos (isDigitC_digitChar (n % 10) (by omega)),
        digitChar_toNat (n % 10) (by omega)]
      congr 1
      rw [pow_succ, ← mul_assoc]
      generalize acc * 10 ^ (natChars (n / 10)).length = A
      omega

theorem parseNum_intChars (i : Int) (rest : List Char) (h : NumDelim rest) :
    parseNum (intChars i ++ rest) = some (i, rest) := by
  by_cases hi : i < 0
  · obtain ⟨c, t, hct, h1, h2⟩ := natChars_head i.natAbs
    have hd : isDigitC c = true := by simp [isDigitC]; omega
    rw [intChars, if_pos hi, List.cons_append, parseNum.eq_def]
    simp only [if_true, hct, List.cons_append, hd]
    rw [show (c :: (t ++ rest)) = natChars i.natAbs ++ rest by rw [hct]; simp]
    rw [parseDigits_natChars, parseDigits_stop _ _ h]
    simp only [Option.some.injEq, Prod.mk.injEq, and_true]
    omega
  · obtain ⟨c, t, hct, h1, h2⟩ := natChars_head i.natAbs
    have hne : c ≠ '-' := by
      intro hc
      rw [hc] at h1
      exact absurd h1 (by decide)
    have hd : isDigitC c = true := by simp [isDigitC]; omega
    rw [intChars, if_neg hi, hct, List.cons_append, parseNum.eq_def]
    simp only [hne, if_false, hd, if_true]
    rw [show (c :: (t ++ rest)) = natChars i.natAbs ++ rest by rw [hct]; simp]
    rw [parseDigits_natChars, parseDigits_stop _ _ h]
    simp only [Option.some.injEq, Prod.mk.injEq, and_true]
    omega

theorem psb_escape (s : List Char) : ∀ rest,
    parseStrBody (escapeStr s ++ '"' :: rest) = some (s, rest) := by
  induction s with
  | nil =>
    intro rest
    rw [escapeStr, List.nil_append, parseStrBody.eq_def]
    simp
  | cons c cs ih =>
    intro rest
    by_cases hc : c = '"' ∨ c = '\\'
    · rw [escapeStr, escapeChar, if_pos hc, List.cons_append, List.singleton_append,
        List.cons_append, parseStrBody.eq_def]
      simp only []
      rw [if_neg (show ('\\' : Char) ≠ '"' by decide), if_true]
      show Option.map (fun p => (c :: p.1, p.2))
          (parseStrBody (escapeStr cs ++ '"' :: rest)) = some (c :: cs, rest)
      rw [ih rest]
      rfl
    · push_neg at hc
      rw [escapeStr, escapeChar, if_neg (by tauto), List.singleton_append,
        List.cons_append, parseStrBody.eq_def]
      simp only []
      rw [if_neg hc.1, if_neg hc.2, ih rest]
      rfl

theorem serializeV_null : serializeV .null = ['n', 'u', 'l', 'l'] := by
  simp [serializeV]

theorem serializeV_true : serializeV (.bool true) = ['t', 'r', 'u', 'e'] := by
  simp [serializeV]

theorem serializeV_false : serializeV (.bool false) = ['f', 'a', 'l', 's', 'e'] := by
  simp [serializeV]

theorem serializeV_num (i : Int) : serializeV (.num i) = intChars i := by
  simp [serializeV]

theorem serializeV_str (s : String) :
    serializeV (.str s) = '"' :: (escapeStr s.data ++ ['"']) := by
  simp [serializeV]

theorem serializeV_arrNil : serializeV (.arr []) = ['[', ']'] := by
  simp [serializeV]

theorem serializeV_arrCons (v : JsonValue) (vs : List JsonValue) :
    serializeV (.arr (v :: vs)) = '[' :: (serializeV v ++ serArrRest vs) := by
  simp [serializeV]

theorem serializeV_objNil : serializeV (.obj []) = ['{', '}'] := by
  simp [serializeV]

theorem serializeV_objCons (f : String × JsonValue) (fs : List (String × JsonValue)) :
    serializeV (.obj (f :: fs)) = '{' :: (serFld f ++ serObjRest fs) := by
  simp [serializeV]

theorem serArrRest_nil : serArrRest [] = [']'] := by
  simp [serArrRest]

theorem serArrRest_cons (v : JsonValue) (vs : List JsonValue) :
    serArrRest (v :: vs) = ',' :: (serializeV v ++ serArrRest vs) := by
  simp [serArrRest]

theorem serObjRest_nil : serObjRest [] = ['}'] := by
  simp [serObjRest]

theorem serObjRest_cons (f : String × JsonValue) (fs : List (String × JsonValue)) :
    serObjRest (f :: fs) = ',' :: (serFld f ++ serObjRest fs) := by
  simp [serObjRest]

theorem serFld_eq (k : String) (v : JsonValue) :
    serFld (k, v) = '"' :: (escapeStr k.data ++ ('"' :: ':' :: serializeV v)) := by
  simp [serFld]

theorem string_mk_data' (l : List Char) : (String.mk l).data = l := rfl

theorem parseV_succ (m : Nat) (c : Char) (r : List Char) :
    parseV (m + 1) (c :: r) =
      (if c = 'n' then
        match r with
        | 'u' :: 'l' :: 'l' :: r2 => some (.null, r2)
        | _ => none
      else if c = 't' then
        match r with
        | 'r' :: 'u' :: 'e' :: r2 => some (.bool true, r2)
        | _ => none
      else if c = 'f' then
        match r with
        | 'a' :: 'l' :: 's' :: 'e' :: r2 => some (.bool false, r2)
        | _ => none
      else if c = '"' then
        (parseStrBody r).map (fun p => (.str (String.mk p.1), p.2))
      else if c = '[' then
        if r.head? = some ']' then some (.arr [], r.tail)
        else (parseElems m r).map (fun p => (.arr p.1, p.2))
      else if c = '{' then
        if r.head? = some '}' then some (.obj [], r.tail)
        else (parseFields m r).map (fun p => (.obj p.1, p.2))
      else
        (parseNum (c :: r)).map (fun p => (.num p.1, p.2))) := rfl

theorem parseElems_succ (m : Nat) (cs : List Char) :
    parseElems (m + 1) cs =
      (parseV m cs).bind (fun vr =>
        if vr.2.head? = some ',' then
          (parseElems m vr.2.tail).map (fun p => (vr.1 :: p.1, p.2))
        else if vr.2.head? = some ']' then some ([vr.1], vr.2.tail)
        else none) := rfl

theorem parseFields_succ (m : Nat) (cs : List Char) :
    parseFields (m + 1) cs =
      (if cs.head? = some '"' then
        (parseStrBody cs.tail).bind (fun kr =>
          if kr.2.head? = some ':' then
            (parseV m kr.2.tail).bind (fun vr =>
              if vr.2.head? = some ',' then
                (parseFields m vr.2.tail).map (fun p => ((String.mk kr.1, vr.1) :: p.1, p.2))
              else if vr.2.head? = some '}' then some ([(String.mk kr.1, vr.1)], vr.2.tail)
              else none)
          else none)
      else none) := rfl

theorem intChars_head (i : Int) :
    ∃ c t, intChars i = c :: t ∧ (c = '-' ∨ (48 ≤ c.toNat ∧ c.toNat ≤ 57)) := by
  by_cases hi : i < 0
  · exact ⟨'-', natChars i.natAbs, by rw [intChars, if_pos hi], Or.inl rfl⟩
  · obtain ⟨c, t, hct, h1, h2⟩ := natChars_head i.natAbs
    exact ⟨c, t, by rw [intChars, if_neg hi, hct], Or.inr ⟨h1, h2⟩⟩

theorem numHead_ne (c : Char) (h : c = '-' ∨ (48 ≤ c.toNat ∧ c.toNat ≤ 57)) :
    c ≠ 'n' ∧ c ≠ 't' ∧ c ≠ 'f' ∧ c ≠ '"' ∧ c ≠ '[' ∧ c ≠ '{' := by
  rcases h with h | h
  · subst h
    exact ⟨by decide, by decide, by decide, by decide, by decide, by decide⟩
  · refine ⟨?_, ?_, ?_, ?_, ?_, ?_⟩ <;> (intro he; subst he; revert h; decide)

theorem serializeV_head (v : JsonValue) :
    ∃ c t, serializeV v = c :: t ∧ JHead c := by
  cases v with
  | null => exact ⟨'n', _, serializeV_null, Or.inl rfl⟩
  | bool b =>
    cases b
    · exact ⟨'f', _, serializeV_false, by simp [JHead]⟩
    · exact ⟨'t', _, serializeV_true, by simp [JHead]⟩
  | num i =>
    obtain ⟨c, t, hct, hcd⟩ := intChars_head i
    refine ⟨c, t, by rw [serializeV_num, hct], ?_⟩
    rcases hcd with h | h
    · exact Or.inr (Or.inr (Or.inr (Or.inr (Or.inr (Or.inr (Or.inl h))))))
    · exact Or.inr (Or.inr (Or.inr (Or.inr (Or.inr (Or.inr (Or.inr h))))))
  | str s => exact ⟨'"', _, serializeV_str s, by simp [JHead]⟩
  | arr es =>
    cases es
    · exact ⟨'[', _, serializeV_arrNil, by simp [JHead]⟩
    · exact ⟨'[', _, serializeV_arrCons _ _, by simp [JHead]⟩
  | obj fs =>
    cases fs
    · exact ⟨'{', _, serializeV_objNil, by simp [JHead]⟩
    · exact ⟨'{', _, serializeV_objCons _ _, by simp [JHead]⟩

theorem jhead_ne_close (c : Char) (h : JHead c) : c ≠ ']' ∧ c ≠ '}' := by
  rcases h with h | h | h | h | h | h | h | h
  all_goals first
    | (subst h; exact ⟨by decide, by decide⟩)
    | (refine ⟨?_, ?_⟩ <;> (intro he; subst he; revert h; decide))

theorem serializeV_len_pos (v : JsonValue) : 1 ≤ (serializeV v).length := by
  obtain ⟨c, t, h, _⟩ := serializeV_head v
  rw [h]
  simp

theorem serArrRest_len_pos (vs : List JsonValue) : 1 ≤ (serArrRest vs).length := by
  cases vs
  · rw [serArrRest_nil]; simp
  · rw [serArrRest_cons]; simp

theorem serObjRest_len_pos (fs : List (String × JsonValue)) :
    1 ≤ (serObjRest fs).length := by
  cases fs
  · rw [serObjRest_nil]; simp
  · rw [serObjRest_cons]; simp

theorem serFld_len (k : String) (v : JsonValue) :
    (serFld (k, v)).length = 3 + (escapeStr k.data).length + (serializeV v).length := by
  rw [serFld_eq]
  simp
  omega

theorem numDelim_serArrRest (vs : List JsonValue) (rest : List Char) :
    NumDelim (serArrRest vs ++ rest) := by
  cases vs
  · rw [serArrRest_nil, List.singleton_append]
    show ¬(48 ≤ (']' : Char).toNat ∧ (']' : Char).toNat ≤ 57)
    decide
  · rw [serArrRest_cons, List.cons_append]
    show ¬(48 ≤ (',' : Char).toNat ∧ (',' : Char).toNat ≤ 57)
    decide

theorem numDelim_serObjRest (fs : List (String × JsonValue)) (rest : List Char) :
    NumDelim (serObjRest fs ++ rest) := by
  cases fs
  · rw [serObjRest_nil, List.singleton_append]
    show ¬(48 ≤ ('}' : Char).toNat ∧ ('}' : Char).toNat ≤ 57)
    decide
  · rw [serObjRest_cons, List.cons_append]
    show ¬(48 ≤ (',' : Char).toNat ∧ (',' : Char).toNat ≤ 57)
    decide

theorem parse_serialize : ∀ fuel : Nat,
    (∀ v rest, 2 * (serializeV v).length ≤ fuel → NumDelim rest →
      parseV fuel (serializeV v ++ rest) = some (v, rest)) ∧
    (∀ v vs rest, 2 * ((serializeV v).length + (serArrRest vs).length) ≤ fuel →
      parseElems fuel (serializeV v ++ (serArrRest vs ++ rest)) = some (v :: vs, rest)) ∧
    (∀ k v fs rest, 2 * ((serFld (k, v)).length + (serObjRest fs).length) ≤ fuel →
      parseFields fuel (serFld (k, v) ++ (serObjRest fs ++ rest)) = some ((k, v) :: fs, rest)) := by
  intro fuel
  induction fuel with
  | zero =>
    refine ⟨?_, ?_, ?_⟩
    · intro v rest hf _
      have := serializeV_len_pos v
      omega
    · intro v vs rest hf
      have := serializeV_len_pos v
      have := serArrRest_len_pos vs
      omega
    · intro k v fs rest hf
      have := serFld_len k v
      have := serObjRest_len_pos fs
      omega
  | succ m ih =>
    obtain ⟨ihP, ihQ, ihR⟩ := ih
    refine ⟨?_, ?_, ?_⟩
    · -- values
      intro v rest hf hnd
      cases v with
      | null =>
        rw [serializeV_null, List.cons_append, List.cons_append, List.cons_append,
          List.cons_append, List.nil_append, parseV_succ, if_pos rfl]
        rfl
      | bool b =>
        cases b
        · rw [serializeV_false, List.cons_append, List.cons_append, List.cons_append,
            List.cons_append, List.cons_append, List.nil_append, parseV_succ,
            if_neg (by decide), if_neg (by decide), if_pos rfl]
          rfl
        · rw [serializeV_true, List.cons_append, List.cons_append, List.cons_append,
            List.cons_append, List.nil_append, parseV_succ,
            if_neg (by decide), if_pos rfl]
          rfl
      | num i =>
        obtain ⟨c, t, hct, hcd⟩ := intChars_head i
        obtain ⟨n1, n2, n3, n4, n5, n6⟩ := numHead_ne c hcd
        rw [serializeV_num, hct, List.cons_append, parseV_succ, if_neg n1, if_neg n2,
          if_neg n3, if_neg n4, if_neg n5, if_neg n6, ← List.cons_append, ← hct,
          parseNum_intChars i rest hnd]
        rfl
      | str s =>
        rw [serializeV_str, List.cons_append, parseV_succ, if_neg (by decide),
          if_neg (by decide), if_neg (by decide), if_pos rfl, List.append_assoc,
          List.singleton_append, psb_escape s.data rest]
        simp only [Option.map_some']
      | arr es =>
        cases es with
        | nil =>
          rw [serializeV_arrNil, List.cons_append, List.cons_append, List.nil_append,
            parseV_succ, if_neg (by decide), if_neg (by decide), if_neg (by decide),
            if_neg (by decide), if_pos rfl, List.head?_cons, if_pos rfl, List.tail_cons]
        | cons v vs =>
          rw [serializeV_arrCons] at hf ⊢
          rw [List.cons_append, parseV_succ, if_neg (by decide), if_neg (by decide),
            if_neg (by decide), if_neg (by decide), if_pos rfl, List.append_assoc]
          obtain ⟨c0, t0, h0, hj⟩ := serializeV_head v
          have hne : c0 ≠ ']' := (jhead_ne_close c0 hj).1
          have hh : (serializeV v ++ (serArrRest vs ++ rest)).head? = some c0 := by
            rw [h0, List.cons_append, List.head?_cons]
          rw [if_neg (by rw [hh]; simp [hne])]
          have harith : 2 * ((serializeV v).length + (serArrRest vs).length) ≤ m := by
            simp only [List.length_cons, List.length_append] at hf
            omega
          rw [ihQ v vs rest harith]
          rfl
      | obj fs =>
        cases fs with
        | nil =>
          rw [serializeV_objNil, List.cons_append, List.cons_append, List.nil_append,
            parseV_succ, if_neg (by decide), if_neg (by decide), if_neg (by decide),
            if_neg (by decide), if_neg (by decide), if_pos rfl, List.head?_cons,
            if_pos rfl, List.tail_cons]
        | cons f fs =>
          obtain ⟨k, v⟩ := f
          rw [serializeV_objCons] at hf ⊢
          rw [List.cons_append, parseV_succ, if_neg (by decide), if_neg (by decide),
            if_neg (by decide), if_neg (by decide), if_neg (by decide), if_pos rfl,
            List.append_assoc]
          have hh : (serFld (k, v) ++ (serObjRest fs ++ rest)).head? = some '"' := by
            rw [serFld_eq, List.cons_append, List.head?_cons]
          rw [if_neg (by rw [hh]; simp)]
          have harith : 2 * ((serFld (k, v)).length + (serObjRest fs).length) ≤ m := by
            simp only [List.length_cons, List.length_append] at hf
            omega
          rw [ihR k v fs rest harith]
          rfl
    · -- array elements
      intro v vs rest hf
      rw [parseElems_succ]
      have hlv := serializeV_len_pos v
      have hlr := serArrRest_len_pos vs
      have hP := ihP v (serArrRest vs ++ rest) (by omega) (numDelim_serArrRest vs rest)
      rw [hP, Option.some_bind]
      cases vs with
      | nil =>
        rw [serArrRest_nil, List.singleton_append]
        show (if (']' :: rest).head? = some ',' then _ else _) = _
        rw [List.head?_cons, if_neg (by decide), if_pos rfl]
        rfl
      | cons v2 vs2 =>
        rw [serArrRest_cons] at hf ⊢
        rw [List.cons_append]
        show (if (',' :: ((serializeV v2 ++ serArrRest vs2) ++ rest)).head? = some ','
          then _ else _) = _
        rw [List.head?_cons, if_pos rfl, List.tail_cons, List.append_assoc]
        have harith : 2 * ((serializeV v2).length + (serArrRest vs2).length) ≤ m := by
          simp only [List.length_cons, List.length_append] at hf
          omega
        rw [ihQ v2 vs2 rest harith]
        rfl
    · -- object members
      intro k v fs rest hf
      rw [parseFields_succ, serFld_eq, List.cons_append, List.head?_cons, if_pos rfl,
        List.tail_cons, List.append_assoc]
      rw [show (('"' :: ':' :: serializeV v) ++ (serObjRest fs ++ rest)) =
        '"' :: (':' :: (serializeV v ++ (serObjRest fs ++ rest))) by simp]
      rw [psb_escape k.data, Option.some_bind]
      show (if (':' :: (serializeV v ++ (serObjRest fs ++ rest))).head? = some ':'
        then _ else _) = _
      rw [List.head?_cons, if_pos rfl, List.tail_cons]
      have hlf := serFld_len k v
      have hlo := serObjRest_len_pos fs
      have hP := ihP v (serObjRest fs ++ rest) (by omega) (numDelim_serObjRest fs rest)
      rw [hP, Option.some_bind]
      cases fs with
      | nil =>
        rw [serObjRest_nil, List.singleton_append]
        show (if ('}' :: rest).head? = some ',' then _ else _) = _
        rw [List.head?_cons, if_neg (by decide), if_pos rfl, string_mk_data]
        rfl
      | cons f2 fs2 =>
        obtain ⟨k2, v2⟩ := f2
        rw [serObjRest_cons] at hf ⊢
        rw [List.cons_append]
        show (if (',' :: ((serFld (k2, v2) ++ serObjRest fs2) ++ rest)).head? = some ','
          then _ else _) = _
        rw [List.head?_cons, if_pos rfl, List.tail_cons, List.append_assoc]
        have harith : 2 * ((serFld (k2, v2)).length + (serObjRest fs2).length) ≤ m := by
          have hlf2 := serFld_len k2 v2
          simp only [List.length_cons, List.length_append] at hf
          omega
        rw [ihR k2 v2 fs2 rest harith, string_mk_data]
        rfl


theorem jsonParseL_serializeV (v : JsonValue) :
    jsonParseL (serializeV v) = some v := by
  have h := (parse_serialize (2 * (serializeV v).length + 1)).1 v []
    (by omega) trivial
  rw [List.append_nil] at h
  rw [jsonParseL, h]

theorem decryptS_encryptV (v : JsonValue) :
    decryptS (String.mk (encTagL ++ serializeV v)) = some v := by
  rw [decryptS]
  rw [show (String.mk (encTagL ++ serializeV v)).data = encTagL ++ serializeV v from rfl]
  rw [if_pos (by rw [List.isPrefixOf_iff_prefix]; exact List.prefix_append _ _)]
  rw [show (encTagL ++ serializeV v).drop 10 = serializeV v by
    have h : encTagL.length = 10 := rfl
    rw [← h, List.drop_left]]
  exact jsonParseL_serializeV v

theorem escapeStr_len_ge (l : List Char) : l.length ≤ (escapeStr l).length := by
  induction l with
  | nil => simp [escapeStr]
  | cons c cs ih =>
    rw [escapeStr, escapeChar]
    by_cases h : c = '"' ∨ c = '\\'
    · rw [if_pos h]
      simp only [List.length_append, List.length_cons]
      omega
    · rw [if_neg h]
      simp only [List.length_append, List.length_cons]
      omega

theorem encryptV_ne (v : JsonValue) : encryptV v ≠ v := by
  cases v with
  | str s =>
    intro h
    have hd : encTagL ++ serializeV (.str s) = s.data := by
      have := JsonValue.str.inj h
      exact congrArg String.data this
    have hlen := congrArg List.length hd
    rw [serializeV_str] at hlen
    simp only [List.length_append, List.length_cons] at hlen
    have := escapeStr_len_ge s.data
    have htag : encTagL.length = 10 := rfl
    omega
  | null => intro h; exact JsonValue.noConfusion h
  | bool b => intro h; exact JsonValue.noConfusion h
  | num n => intro h; exact JsonValue.noConfusion h
  | arr es => intro h; exact JsonValue.noConfusion h
  | obj fs => intro h; exact JsonValue.noConfusion h

theorem alGet_set_self {β : Type} (m : List (String × β)) (k : String) (v : β) :
    alGet (alSet m k v) k = some v := by
  induction m with
  | nil => simp [alSet, alGet]
  | cons kv rest ih =>
    obtain ⟨k', v'⟩ := kv
    by_cases h : k' = k
    · rw [alSet, if_pos h, alGet, if_pos rfl]
    · rw [alSet, if_neg h, alGet, if_neg h, ih]

theorem getLocal_putItem (st : HybridState) (t : StoreType) (id : String)
    (item : StoreItem) :
    getLocal (putItem st t id item) id (some t) = some item := by
  cases t <;> simp [putItem, getLocal, alGet_set_self]

theorem store_id_eq (cfg : StorageConfig) (st : HybridState) (data : JsonValue)
    (opts : StoreOptions) (now : Nat) (rand : String) :
    (store cfg st data opts now rand).id = storeId (resolvedType opts data) now rand := by
  simp only [store]
  split <;> rfl

theorem store_state_eq (cfg : StorageConfig) (st : HybridState) (data : JsonValue)
    (opts : StoreOptions) (now : Nat) (rand : String) :
    (store cfg st data opts now rand).state =
      putItem st (resolvedType opts data) (storeId (resolvedType opts data) now rand)
        ⟨storeId (resolvedType opts data) now rand, storedData cfg data,
          storedMeta cfg opts.metadata, now⟩ := by
  simp only [store]
  split <;> rfl

theorem retrieve_stored_item (cfg : StorageConfig) (st : HybridState) (id : String)
    (ropts : RetrieveOptions) (now2 : Nat) (data md : JsonValue) (id0 : String)
    (now0 : Nat)
    (h : getLocal st id ropts.type =
      some ⟨id0, storedData cfg data, storedMeta cfg md, now0⟩) :
    retrieve cfg st id ropts now2 = .ok (⟨id0, data, md, now0⟩, st) := by
  simp only [retrieve, h]
  by_cases hk : cfg.hasKey ∧ cfg.encryptionLevel = "full"
  · by_cases hm : cfg.hasKey ∧
        (cfg.encryptionLevel = "metadata" ∨ cfg.encryptionLevel = "full")
    · simp only [storedData, storedMeta, if_pos hk, if_pos hm, encryptV, if_pos rfl]
      rw [decryptS_encryptV, decryptS_encryptV]
    · simp only [storedData, storedMeta, if_pos hk, if_neg hm, encryptV, if_pos rfl]
      rw [decryptS_encryptV]
  · by_cases hm : cfg.hasKey ∧
        (cfg.encryptionLevel = "metadata" ∨ cfg.encryptionLevel = "full")
    · simp only [storedData, storedMeta, if_neg hk, if_pos hm, encryptV, if_pos rfl]
      rw [decryptS_encryptV]
    · simp only [storedData, storedMeta, if_neg hk, if_neg hm]

theorem bmGet_set_self (bm : BenchMap) (t : String) (lat : Nat) :
    bmGet (bmSet bm t lat) t = some lat := by
  induction bm with
  | nil => simp [bmSet, bmGet]
  | cons kv rest ih =>
    obtain ⟨k', v'⟩ := kv
    by_cases h : k' = t
    · rw [bmSet, if_pos h, bmGet, if_pos rfl]
    · rw [bmSet, if_neg h, bmGet, if_neg h, ih]

theorem bmGet_set_ne (bm : BenchMap) (t t' : String) (lat : Nat) (h : t ≠ t') :
    bmGet (bmSet bm t lat) t' = bmGet bm t' := by
  induction bm with
  | nil => simp [bmSet, bmGet, h]
  | cons kv rest ih =>
    obtain ⟨k', v'⟩ := kv
    by_cases hk : k' = t
    · subst hk
      rw [bmSet, if_pos rfl, bmGet, if_neg h, bmGet, if_neg h]
    · rw [bmSet, if_neg hk, bmGet, bmGet]
      by_cases hk' : k' = t'
      · rw [if_pos hk', if_pos hk']
      · rw [if_neg hk', if_neg hk', ih]

theorem benchmark_true_iff (probe : ProbeOracle) (tech modelId : String)
    (bm : BenchMap) :
    (benchmarkTechnology probe tech modelId bm).1 = true ↔
      probeSuccessful probe tech modelId := by
  rw [benchmarkTechnology, probeSuccessful]
  by_cases hmem : tech ∈ knownTechs
  · rw [if_pos hmem]
    cases hp : probe tech modelId with
    | threw => simp [hp, hmem]
    | completed lat => simp [hp, hmem]
  · rw [if_neg hmem]
    simp [hmem]

theorem benchmark_bm_cases (probe : ProbeOracle) (tech modelId : String)
    (bm : BenchMap) :
    (benchmarkTechnology probe tech modelId bm).2 = bm ∨
      ∃ lat, probe tech modelId = .completed lat ∧
        (benchmarkTechnology probe tech modelId bm).2 = bmSet bm tech lat ∧
        tech ∈ knownTechs := by
  rw [benchmarkTechnology]
  by_cases hmem : tech ∈ knownTechs
  · rw [if_pos hmem]
    cases hp : probe tech modelId with
    | threw => exact Or.inl rfl
    | completed lat => exact Or.inr ⟨lat, rfl, rfl, hmem⟩
  · rw [if_neg hmem]
    exact Or.inl rfl

theorem getLast?_cons_ne {α : Type} (a : α) (l : List α) (h : l ≠ []) :
    (a :: l).getLast? = l.getLast? := by
  cases l with
  | nil => exact absurd rfl h
  | cons b t => rfl

theorem dropLast_cons_ne {α : Type} (a : α) (l : List α) (h : l ≠ []) :
    (a :: l).dropLast = a :: l.dropLast := by
  cases l with
  | nil => exact absurd rfl h
  | cons b t => rfl

theorem selLoop_cons_elig_succ (probe : ProbeOracle) (caps : CapabilitySet)
    (reqCap tech : String) (cfg : TechnologyConfig)
    (rest : List (String × TechnologyConfig)) (bm : BenchMap)
    (hm : meetsRequirements caps cfg.requires = true)
    (hs : (benchmarkTechnology probe tech (cfg.models.headD "") bm).1 = true) :
    selLoop probe caps reqCap ((tech, cfg) :: rest) bm =
      ({ technology := tech, model := cfg.models.headD "", capability := reqCap,
         fallbacks := cfg.models.drop 1,
         confidence := calculateConfidence cfg.priority
           (bmGet (benchmarkTechnology probe tech (cfg.models.headD "") bm).2 tech) },
       (benchmarkTechnology probe tech (cfg.models.headD "") bm).2,
       [(tech, cfg.models.headD "")]) := by
  rw [selLoop]
  simp only [hm, if_true, hs, if_true]

theorem selLoop_cons_elig_fail (probe : ProbeOracle) (caps : CapabilitySet)
    (reqCap tech : String) (cfg : TechnologyConfig)
    (rest : List (String × TechnologyConfig)) (bm : BenchMap)
    (hm : meetsRequirements caps cfg.requires = true)
    (hs : ¬(benchmarkTechnology probe tech (cfg.models.headD "") bm).1 = true) :
    selLoop probe caps reqCap ((tech, cfg) :: rest) bm =
      ((selLoop probe caps reqCap rest
          (benchmarkTechnology probe tech (cfg.models.headD "") bm).2).1,
       (selLoop probe caps reqCap rest
          (benchmarkTechnology probe tech (cfg.models.headD "") bm).2).2.1,
       (tech, cfg.models.headD "") ::
         (selLoop probe caps reqCap rest
           (benchmarkTechnology probe tech (cfg.models.headD "") bm).2).2.2) := by
  rw [selLoop]
  simp only [hm, if_true, hs, if_false]
  rfl

theorem selLoop_cons_inelig (probe : ProbeOracle) (caps : CapabilitySet)
    (reqCap tech : String) (cfg : TechnologyConfig)
    (rest : List (String × TechnologyConfig)) (bm : BenchMap)
    (hm : ¬meetsRequirements caps cfg.requires = true) :
    selLoop probe caps reqCap ((tech, cfg) :: rest) bm =
      selLoop probe caps reqCap rest bm := by
  rw [selLoop]
  simp only [hm, if_false]
  rfl

theorem selLoop_spec (probe : ProbeOracle) (caps : CapabilitySet) (reqCap : String)
    (l : List (String × TechnologyConfig)) : ∀ bm : BenchMap,
    (∀ tm ∈ (selLoop probe caps reqCap l bm).2.2,
      ∃ cfg, (tm.1, cfg) ∈ l ∧ meetsRequirements caps cfg.requires = true ∧
        tm.2 = cfg.models.headD "") ∧
    (((selLoop probe caps reqCap l bm).1 = cloudSentinel reqCap ∧
      ∀ tm ∈ (selLoop probe caps reqCap l bm).2.2,
        ¬probeSuccessful probe tm.1 tm.2) ∨
      (∃ cfg, ((selLoop probe caps reqCap l bm).1.technology, cfg) ∈ l ∧
        meetsRequirements caps cfg.requires = true ∧
        probeSuccessful probe (selLoop probe caps reqCap l bm).1.technology
          (cfg.models.headD "") ∧
        (selLoop probe caps reqCap l bm).1.model = cfg.models.headD "" ∧
        (selLoop probe caps reqCap l bm).1.fallbacks = cfg.models.drop 1 ∧
        (selLoop probe caps reqCap l bm).1.capability = reqCap ∧
        (selLoop probe caps reqCap l bm).2.2.getLast? =
          some ((selLoop probe caps reqCap l bm).1.technology,
            (selLoop probe caps reqCap l bm).1.model) ∧
        ∀ tm ∈ (selLoop probe caps reqCap l bm).2.2.dropLast,
          ¬probeSuccessful probe tm.1 tm.2)) ∧
    (∀ t, bmGet (selLoop probe caps reqCap l bm).2.1 t = bmGet bm t ∨
      ∃ mId lat, (t, mId) ∈ (selLoop probe caps reqCap l bm).2.2 ∧
        probe t mId = .completed lat ∧
        bmGet (selLoop probe caps reqCap l bm).2.1 t = some lat) := by
  induction l with
  | nil =>
    intro bm
    refine ⟨?_, ?_, ?_⟩
    · intro tm hmem
      simp [selLoop] at hmem
    · left
      exact ⟨rfl, by intro tm hmem; simp [selLoop] at hmem⟩
    · intro t
      left
      rfl
  | cons hd rest ih =>
    obtain ⟨tech, cfg⟩ := hd
    intro bm
    by_cases hm : meetsRequirements caps cfg.requires = true
    · by_cases hs : (benchmarkTechnology probe tech (cfg.models.headD "") bm).1 = true
      · -- eligible, probe successful: immediate return
        have hsel := selLoop_cons_elig_succ probe caps reqCap tech cfg rest bm hm hs
        have hsucc := (benchmark_true_iff probe tech (cfg.models.headD "") bm).mp hs
        obtain ⟨hmem, lat, hplat, hlt⟩ := hsucc
        have hbm2 : (benchmarkTechnology probe tech (cfg.models.headD "") bm).2 =
            bmSet bm tech lat := by
          rw [benchmarkTechnology, if_pos hmem, hplat]
        rw [hsel]
        refine ⟨?_, ?_, ?_⟩
        · intro tm hmem'
          simp only [List.mem_singleton] at hmem'
          subst hmem'
          exact ⟨cfg, List.mem_cons_self _ _, hm, rfl⟩
        · right
          refine ⟨cfg, List.mem_cons_self _ _, hm, ⟨hmem, lat, hplat, hlt⟩,
            rfl, rfl, rfl, rfl, ?_⟩
          intro tm hmem'
          simp at hmem'
        · intro t
          by_cases ht : t = tech
          · subst ht
            right
            exact ⟨cfg.models.headD "", lat, List.mem_singleton_self _, hplat,
              by rw [hbm2]; exact bmGet_set_self bm t lat⟩
          · left
            rw [hbm2]
            exact bmGet_set_ne bm tech t lat (fun he => ht he.symm)
      · -- eligible, probe failed: advance
        have hfail : ¬probeSuccessful probe tech (cfg.models.headD "") :=
          fun hsucc => hs ((benchmark_true_iff probe tech (cfg.models.headD "") bm).mpr hsucc)
        have hsel := selLoop_cons_elig_fail probe caps reqCap tech cfg rest bm hm hs
        rcases benchmark_bm_cases probe tech (cfg.models.headD "") bm with hbm | ⟨lat, hplat, hbm, hmem⟩
        · -- threw (or unknown): record untouched
          rw [hbm] at hsel
          obtain ⟨ih1, ih2, ih3⟩ := ih bm
          rw [hsel]
          refine ⟨?_, ?_, ?_⟩
          · intro tm hmem'
            rcases List.mem_cons.mp hmem' with he | ht
            · subst he
              exact ⟨cfg, List.mem_cons_self _ _, hm, rfl⟩
            · obtain ⟨cfg', h1, h2, h3⟩ := ih1 tm ht
              exact ⟨cfg', List.mem_cons_of_mem _ h1, h2, h3⟩
          · rcases ih2 with ⟨hsent, hall⟩ | ⟨cfg', h1, h2, h3, h4, h5, h6, h7, h8⟩
            · left
              refine ⟨hsent, ?_⟩
              intro tm hmem'
              rcases List.mem_cons.mp hmem' with he | ht
              · subst he; exact hfail
              · exact hall tm ht
            · right
              have hne : (selLoop probe caps reqCap rest bm).2.2 ≠ [] := by
                intro h0
                rw [h0] at h7
                simp at h7
              refine ⟨cfg', List.mem_cons_of_mem _ h1, h2, h3, h4, h5, h6, ?_, ?_⟩
              · rw [getLast?_cons_ne _ _ hne]
                exact h7
              · rw [dropLast_cons_ne _ _ hne]
                intro tm hmem'
                rcases List.mem_cons.mp hmem' with he | ht
                · subst he; exact hfail
                · exact h8 tm ht
          · intro t
            rcases ih3 t with h | ⟨mId', lat', h1, h2, h3⟩
            · left; exact h
            · right; exact ⟨mId', lat', List.mem_cons_of_mem _ h1, h2, h3⟩
        · -- completed but over the ceiling: latency recorded, then advance
          rw [hbm] at hsel
          obtain ⟨ih1, ih2, ih3⟩ := ih (bmSet bm tech lat)
          rw [hsel]
          refine ⟨?_, ?_, ?_⟩
          · intro tm hmem'
            rcases List.mem_cons.mp hmem' with he | ht
            · subst he
              exact ⟨cfg, List.mem_cons_self _ _, hm, rfl⟩
            · obtain ⟨cfg', h1, h2, h3⟩ := ih1 tm ht
              exact ⟨cfg', List.mem_cons_of_mem _ h1, h2, h3⟩
          · rcases ih2 with ⟨hsent, hall⟩ | ⟨cfg', h1, h2, h3, h4, h5, h6, h7, h8⟩
            · left
              refine ⟨hsent, ?_⟩
              intro tm hmem'
              rcases List.mem_cons.mp hmem' with he | ht
              · subst he; exact hfail
              · exact hall tm ht
            · right
              have hne : (selLoop probe caps reqCap rest (bmSet bm tech lat)).2.2 ≠ [] := by
                intro h0
                rw [h0] at h7
                simp at h7
              refine ⟨cfg', List.mem_cons_of_mem _ h1, h2, h3, h4, h5, h6, ?_, ?_⟩
              · rw [getLast?_cons_ne _ _ hne]
                exact h7
              · rw [dropLast_cons_ne _ _ hne]
                intro tm hmem'
                rcases List.mem_cons.mp hmem' with he | ht
                · subst he; exact hfail
                · exact h8 tm ht
          · intro t
            rcases ih3 t with h | ⟨mId', lat', h1, h2, h3⟩
            · by_cases ht : t = tech
              · subst ht
                right
                refine ⟨cfg.models.headD "", lat, List.mem_cons_self _ _, hplat, ?_⟩
                rw [h]
                exact bmGet_set_self bm t lat
              · left
                rw [h]
                exact bmGet_set_ne bm tech t lat (fun he => ht he.symm)
            · right
              exact ⟨mId', lat', List.mem_cons_of_mem _ h1, h2, h3⟩
    · -- capability requirements unmet: skipped without probing
      have hsel := selLoop_cons_inelig probe caps reqCap tech cfg rest bm hm
      obtain ⟨ih1, ih2, ih3⟩ := ih bm
      rw [hsel]
      refine ⟨?_, ?_, ?_⟩
      · intro tm hmem'
        obtain ⟨cfg', h1, h2, h3⟩ := ih1 tm hmem'
        exact ⟨cfg', List.mem_cons_of_mem _ h1, h2, h3⟩
      · rcases ih2 with ⟨hsent, hall⟩ | ⟨cfg', h1, h2, h3, h4, h5, h6, h7, h8⟩
        · left; exact ⟨hsent, hall⟩
        · right
          exact ⟨cfg', List.mem_cons_of_mem _ h1, h2, h3, h4, h5, h6, h7, h8⟩
      · exact ih3

theorem calculateConfidence_pos (priority : Nat) (benchmark : Option Nat) :
    0 < calculateConfidence priority benchmark := by
  rw [calculateConfidence]
  have hbase : (1 / 10 : ℚ) ≤ max (1 / 10) (1 - ((benchmark.getD 30000 : Nat) : ℚ) / 60000) :=
    le_max_left _ _
  have hboost : (0 : ℚ) ≤ max 0 (((5 : ℚ) - (priority : ℚ)) * (1 / 10)) := le_max_left _ _
  have hsum : (1 / 10 : ℚ) ≤
      max (1 / 10) (1 - ((benchmark.getD 30000 : Nat) : ℚ) / 60000) +
        max 0 (((5 : ℚ) - (priority : ℚ)) * (1 / 10)) := by linarith
  have hround : (1 / 10 : ℚ) ≤ round2
      (max (1 / 10) (1 - ((benchmark.getD 30000 : Nat) : ℚ) / 60000) +
        max 0 (((5 : ℚ) - (priority : ℚ)) * (1 / 10))) := by
    rw [round2]
    have h10 : (10 : ℤ) ≤ ⌊(max (1 / 10) (1 - ((benchmark.getD 30000 : Nat) : ℚ) / 60000) +
        max 0 (((5 : ℚ) - (priority : ℚ)) * (1 / 10))) * 100 + 1 / 2⌋ := by
      rw [Int.le_floor]
      push_cast
      linarith
    have h10q : (10 : ℚ) ≤
        (⌊(max (1 / 10) (1 - ((benchmark.getD 30000 : Nat) : ℚ) / 60000) +
          max 0 (((5 : ℚ) - (priority : ℚ)) * (1 / 10))) * 100 + 1 / 2⌋ : ℚ) := by
      exact_mod_cast h10
    linarith
  have : (0 : ℚ) < 1 / 10 := by norm_num
  rw [lt_min_iff]
  constructor
  · norm_num
  · linarith

theorem selLoop_min (probe : ProbeOracle) (caps : CapabilitySet) (reqCap : String) :
    ∀ l : List (String × TechnologyConfig),
    l.Sorted (fun a b => a.2.priority ≤ b.2.priority) →
    l.Pairwise (fun a b => a.2.priority ≠ b.2.priority) →
    ∀ (bm : BenchMap) (t2 : String) (cfg2 : TechnologyConfig),
    (t2, cfg2) ∈ l → meetsRequirements caps cfg2.requires = true →
    probeSuccessful probe t2 (cfg2.models.headD "") →
    (selLoop probe caps reqCap l bm).1 ≠ cloudSentinel reqCap ∧
    ∃ cfg1, ((selLoop probe caps reqCap l bm).1.technology, cfg1) ∈ l ∧
      cfg1.priority ≤ cfg2.priority ∧
      ((selLoop probe caps reqCap l bm).1.technology = t2 ∨
        cfg1.priority < cfg2.priority) := by
  intro l
  induction l with
  | nil =>
    intro _ _ bm t2 cfg2 hmem2
    simp at hmem2
  | cons hd rest ih =>
    obtain ⟨tech, cfg⟩ := hd
    intro hsort hdist bm t2 cfg2 hmem2 hm2 hsucc2
    rw [List.sorted_cons] at hsort
    obtain ⟨hsort1, hsort2⟩ := hsort
    rw [List.pairwise_cons] at hdist
    obtain ⟨hdist1, hdist2⟩ := hdist
    by_cases hm : meetsRequirements caps cfg.requires = true
    · by_cases hs : (benchmarkTechnology probe tech (cfg.models.headD "") bm).1 = true
      · rw [selLoop_cons_elig_succ probe caps reqCap tech cfg rest bm hm hs]
        constructor
        · intro heq
          have hconf := congrArg Recommendation.confidence heq
          simp only [cloudSentinel] at hconf
          exact absurd hconf
            (ne_of_gt (calculateConfidence_pos cfg.priority
              (bmGet (benchmarkTechnology probe tech (cfg.models.headD "") bm).2 tech)))
        · refine ⟨cfg, List.mem_cons_self _ _, ?_, ?_⟩
          · rcases List.mem_cons.mp hmem2 with he | ht
            · obtain ⟨he1, he2⟩ := Prod.mk.injEq .. ▸ he
              rw [he2]
            · exact hsort1 _ ht
          · rcases List.mem_cons.mp hmem2 with he | ht
            · obtain ⟨he1, he2⟩ := Prod.mk.injEq .. ▸ he
              exact Or.inl he1.symm
            · exact Or.inr (lt_of_le_of_ne (hsort1 _ ht) (hdist1 _ ht))
      · rcases List.mem_cons.mp hmem2 with he | ht
        · exfalso
          obtain ⟨he1, he2⟩ := Prod.mk.injEq .. ▸ he
          rw [he1, he2] at hsucc2
          exact hs ((benchmark_true_iff probe tech (cfg.models.headD "") bm).mpr hsucc2)
        · rw [selLoop_cons_elig_fail probe caps reqCap tech cfg rest bm hm hs]
          obtain ⟨hns, cfg1, h1, hp1, hlt1⟩ :=
            ih hsort2 hdist2 (benchmarkTechnology probe tech (cfg.models.headD "") bm).2
              t2 cfg2 ht hm2 hsucc2
          exact ⟨hns, cfg1, List.mem_cons_of_mem _ h1, hp1, hlt1⟩
    · rcases List.mem_cons.mp hmem2 with he | ht
      · exfalso
        obtain ⟨he1, he2⟩ := Prod.mk.injEq .. ▸ he
        rw [he2] at hm2
        exact hm hm2
      · rw [selLoop_cons_inelig probe caps reqCap tech cfg rest bm hm]
        obtain ⟨hns, cfg1, h1, hp1, hlt1⟩ := ih hsort2 hdist2 bm t2 cfg2 ht hm2 hsucc2
        exact ⟨hns, cfg1, List.mem_cons_of_mem _ h1, hp1, hlt1⟩

theorem mem_suitableTechs (stack : List (String × TechnologyConfig)) (reqCap : String)
    (x : String × TechnologyConfig) :
    x ∈ suitableTechs stack reqCap ↔ x ∈ stack ∧ reqCap ∈ x.2.capabilities := by
  rw [suitableTechs]
  rw [(List.perm_insertionSort _ _).mem_iff, List.mem_filter]
  simp

theorem sorted_suitableTechs (stack : List (String × TechnologyConfig)) (reqCap : String) :
    (suitableTechs stack reqCap).Sorted
      (fun a b : String × TechnologyConfig => a.2.priority ≤ b.2.priority) := by
  rw [suitableTechs]
  haveI : IsTotal (String × TechnologyConfig)
      (fun a b => a.2.priority ≤ b.2.priority) := ⟨fun a b => Nat.le_total _ _⟩
  haveI : IsTrans (String × TechnologyConfig)
      (fun a b => a.2.priority ≤ b.2.priority) := ⟨fun _ _ _ => Nat.le_trans⟩
  exact List.sorted_insertionSort _ _

theorem pairwise_stack_priorities :
    technologyStack.Pairwise
      (fun a b : String × TechnologyConfig => a.2.priority ≠ b.2.priority) := by
  rw [technologyStack]
  refine List.Pairwise.cons ?_ (List.Pairwise.cons ?_ (List.Pairwise.cons ?_
    (List.Pairwise.cons ?_ List.Pairwise.nil))) <;>
    (intro b hb; simp only [List.mem_cons, List.mem_singleton] at hb <;>
      rcases hb with rfl | rfl | rfl | rfl | rfl <;> decide)

theorem pairwise_suitableTechs (reqCap : String) :
    (suitableTechs technologyStack reqCap).Pairwise
      (fun a b : String × TechnologyConfig => a.2.priority ≠ b.2.priority) := by
  rw [suitableTechs]
  have hperm := List.perm_insertionSort
    (fun a b : String × TechnologyConfig => a.2.priority ≤ b.2.priority)
    (technologyStack.filter (fun tc => decide (reqCap ∈ tc.2.capabilities)))
  rw [hperm.pairwise_iff fun {_ _} h => Ne.symm h]
  exact List.Pairwise.filter _ pairwise_stack_priorities

/-- **C1.** For every capability set and required functional capability,
`selectOptimalTechnology` considers only the configured technologies whose
capability list contains the required capability; every candidate it
probes is such a technology whose required capability flags are all true
(ineligible candidates are skipped without probing); a probe is
successful exactly when it completes without throwing with measured
latency below 30000 ms; the selector returns immediately at the first
probe success — the returned recommendation is the last probe in the log
and every earlier probe failed — and otherwise falls back to the
sentinel with every probe failed; and whenever two configured
technologies both match the capability, are both eligible and both
probe-successful, the returned one has minimal priority rank — the one
with the lower rank wins, regardless of declaration order. -/
theorem claim_C1_first_eligible_probe_success_wins (probe : ProbeOracle)
    (caps : CapabilitySet) (reqCap : String) (bm : BenchMap) :
    (∀ tm ∈ (selectOptimalTechnology probe caps reqCap bm).2.2,
      ∃ cfg, (tm.1, cfg) ∈ technologyStack ∧ reqCap ∈ cfg.capabilities ∧
        meetsRequirements caps cfg.requires = true ∧ tm.2 = cfg.models.headD "") ∧
    (((selectOptimalTechnology probe caps reqCap bm).1 = cloudSentinel reqCap ∧
      ∀ tm ∈ (selectOptimalTechnology probe caps reqCap bm).2.2,
        ¬probeSuccessful probe tm.1 tm.2) ∨
      (∃ cfg, ((selectOptimalTechnology probe caps reqCap bm).1.technology, cfg) ∈
          technologyStack ∧
        reqCap ∈ cfg.capabilities ∧
        meetsRequirements caps cfg.requires = true ∧
        probeSuccessful probe (selectOptimalTechnology probe caps reqCap bm).1.technology
          (cfg.models.headD "") ∧
        (selectOptimalTechnology probe caps reqCap bm).1.model = cfg.models.headD "" ∧
        (selectOptimalTechnology probe caps reqCap bm).1.fallbacks = cfg.models.drop 1 ∧
        (selectOptimalTechnology probe caps reqCap bm).2.2.getLast? =
          some ((selectOptimalTechnology probe caps reqCap bm).1.technology,
            (selectOptimalTechnology probe caps reqCap bm).1.model) ∧
        ∀ tm ∈ (selectOptimalTechnology probe caps reqCap bm).2.2.dropLast,
          ¬probeSuccessful probe tm.1 tm.2)) ∧
    (∀ t2 cfg2, (t2, cfg2) ∈ technologyStack → reqCap ∈ cfg2.capabilities →
      meetsRequirements caps cfg2.requires = true →
      probeSuccessful probe t2 (cfg2.models.headD "") →
      (selectOptimalTechnology probe caps reqCap bm).1 ≠ cloudSentinel reqCap ∧
      ∃ cfg1, ((selectOptimalTechnology probe caps reqCap bm).1.technology, cfg1) ∈
          technologyStack ∧
        reqCap ∈ cfg1.capabilities ∧ cfg1.priority ≤ cfg2.priority ∧
        ((selectOptimalTechnology probe caps reqCap bm).1.technology = t2 ∨
          cfg1.priority < cfg2.priority)) := by
  have hdef : selectOptimalTechnology probe caps reqCap bm =
      selLoop probe caps reqCap (suitableTechs technologyStack reqCap) bm := rfl
  obtain ⟨h1, h2, h3⟩ :=
    selLoop_spec probe caps reqCap (suitableTechs technologyStack reqCap) bm
  rw [hdef]
  refine ⟨?_, ?_, ?_⟩
  · intro tm hmem
    obtain ⟨cfg, hmem', hm, hmod⟩ := h1 tm hmem
    obtain ⟨hstack, hcap⟩ := (mem_suitableTechs _ _ _).mp hmem'
    exact ⟨cfg, hstack, hcap, hm, hmod⟩
  · rcases h2 with ⟨hsent, hall⟩ | ⟨cfg, hmem', hm, hsucc, hmod, hfb, hcap', hlast, hdrop⟩
    · exact Or.inl ⟨hsent, hall⟩
    · obtain ⟨hstack, hcapm⟩ := (mem_suitableTechs _ _ _).mp hmem'
      exact Or.inr ⟨cfg, hstack, hcapm, hm, hsucc, hmod, hfb, hlast, hdrop⟩
  · intro t2 cfg2 hstack2 hcap2 hm2 hsucc2
    have hmem2 : (t2, cfg2) ∈ suitableTechs technologyStack reqCap :=
      (mem_suitableTechs _ _ _).mpr ⟨hstack2, hcap2⟩
    obtain ⟨hns, cfg1, h1', hp1, hlt1⟩ :=
      selLoop_min probe caps reqCap (suitableTechs technologyStack reqCap)
        (sorted_suitableTechs technologyStack reqCap) (pairwise_suitableTechs reqCap)
        bm t2 cfg2 hmem2 hm2 hsucc2
    obtain ⟨hstack1, hcap1⟩ := (mem_suitableTechs _ _ _).mp h1'
    exact ⟨hns, cfg1, hstack1, hcap1, hp1, hlt1⟩

/-- Closed instance of C1: with every probe completing in 100 ms on a
fully capable device, `webllm` (priority 2) matches `conversation`, is
eligible and probe-successful, so the selection is not the sentinel and
settles on a configured technology of rank at most 2. -/
theorem claim_C1_first_eligible_probe_success_wins_witness :
    (selectOptimalTechnology (fun _ _ => .completed 100) (fun _ => true)
        "conversation" []).1 ≠ cloudSentinel "conversation" :=
  ((claim_C1_first_eligible_probe_success_wins (fun _ _ => .completed 100)
      (fun _ => true) "conversation" []).2.2 "webllm"
    { priority := 2, requires := ["webgpu"],
      models := ["Llama-3.1-8B-Instruct-q4f16_1", "Phi-3-mini-4k-instruct-q4f16_1"],
      capabilities := ["text-generation", "conversation", "reasoning"] }
    (by decide) (by decide) (by decide)
    ⟨by decide, 100, rfl, by decide⟩).1

/-- **C3.** For every capability set input the selector's embedding is a
total function — individual probe failures are absorbed, so selection
never throws — and it returns either one of the statically configured
technology descriptors or the cloud sentinel
`{technology := "cloud", model := "api-fallback", fallbacks := [],
confidence := 0}`; and whenever no configured technology lists the
required capability, the result is always that sentinel (whose
confidence is 0). -/
theorem claim_C3_total_sentinel_fallback (probe : ProbeOracle) (caps : CapabilitySet)
    (reqCap : String) (bm : BenchMap) :
    ((∃ cfg, ((selectOptimalTechnology probe caps reqCap bm).1.technology, cfg) ∈
        technologyStack) ∨
      (selectOptimalTechnology probe caps reqCap bm).1 = cloudSentinel reqCap) ∧
    (cloudSentinel reqCap).technology = "cloud" ∧
    (cloudSentinel reqCap).model = "api-fallback" ∧
    (cloudSentinel reqCap).fallbacks = [] ∧
    (cloudSentinel reqCap).confidence = 0 ∧
    ((∀ tc ∈ technologyStack, reqCap ∉ tc.2.capabilities) →
      (selectOptimalTechnology probe caps reqCap bm).1 = cloudSentinel reqCap) := by
  have hdef : selectOptimalTechnology probe caps reqCap bm =
      selLoop probe caps reqCap (suitableTechs technologyStack reqCap) bm := rfl
  obtain ⟨h1, h2, h3⟩ :=
    selLoop_spec probe caps reqCap (suitableTechs technologyStack reqCap) bm
  refine ⟨?_, rfl, rfl, rfl, rfl, ?_⟩
  · rw [hdef]
    rcases h2 with ⟨hsent, -⟩ | ⟨cfg, hmem', -⟩
    · exact Or.inr hsent
    · exact Or.inl ⟨cfg, ((mem_suitableTechs _ _ _).mp hmem').1⟩
  · intro hnone
    have hempty : suitableTechs technologyStack reqCap = [] := by
      rw [suitableTechs]
      have : technologyStack.filter (fun tc => decide (reqCap ∈ tc.2.capabilities)) = [] := by
        rw [List.filter_eq_nil_iff]
        intro a ha
        simp only [decide_eq_true_eq]
        exact hnone a ha
      rw [this]
      rfl
    rw [hdef, hempty]
    rfl

/-- Closed instance of C3: no configured technology lists `"embedding"`,
so the selection is the cloud sentinel. -/
theorem claim_C3_total_sentinel_fallback_witness :
    (selectOptimalTechnology (fun _ _ => .completed 100) (fun _ => true)
        "embedding" []).1 = cloudSentinel "embedding" :=
  (claim_C3_total_sentinel_fallback (fun _ _ => .completed 100) (fun _ => true)
    "embedding" []).2.2.2.2.2 (by decide)

/-- **C10.** `"analysis"` appears in no configured descriptor's
functional-capability list (the analysis-flavoured backends list
`"text-analysis"` instead), so for every device capability set, probe
behaviour and provider behaviour, `initializeAI('analysis')` throws the
"no compatible on-device technology" condition — with no provider
adapter constructed or invoked — because the selector always returns the
cloud sentinel for that required capability. -/
theorem claim_C10_analysis_always_fails (probe : ProbeOracle) (caps : CapabilitySet)
    (providerFor : String → ProviderModel) (bm : BenchMap) :
    (technologyStack.all (fun tc => !(tc.2.capabilities.contains "analysis"))) = true ∧
    (selectOptimalTechnology probe caps "analysis" bm).1 = cloudSentinel "analysis" ∧
    initializeAI probe caps providerFor "analysis" bm =
      (.error "No compatible on-device AI technology available", [],
        (selectOptimalTechnology probe caps "analysis" bm).2.1) := by
  have hsent : (selectOptimalTechnology probe caps "analysis" bm).1 =
      cloudSentinel "analysis" := by
    have hempty : suitableTechs technologyStack "analysis" = [] := by decide
    show (selLoop probe caps "analysis" (suitableTechs technologyStack "analysis") bm).1 =
      cloudSentinel "analysis"
    rw [hempty]
    rfl
  refine ⟨by decide, hsent, ?_⟩
  rw [initializeAI]
  simp only [hsent]
  rfl

/-- **C5.** Whenever the selector returns the cloud sentinel
recommendation, `initializeAI` fails immediately by throwing the
"no compatible on-device technology" condition, with an empty adapter
event log: no provider adapter is constructed or invoked and no
initialization attempt is made. -/
theorem claim_C5_cloud_sentinel_fails_fast (probe : ProbeOracle) (caps : CapabilitySet)
    (providerFor : String → ProviderModel) (reqCap : String) (bm : BenchMap)
    (h : (selectOptimalTechnology probe caps reqCap bm).1 = cloudSentinel reqCap) :
    initializeAI probe caps providerFor reqCap bm =
      (.error "No compatible on-device AI technology available", [],
        (selectOptimalTechnology probe caps reqCap bm).2.1) := by
  rw [initializeAI]
  simp only [h]
  rfl

/-- Closed instance of C5: with no device capabilities at all, every
candidate is skipped, the selector returns the sentinel, and the facade
throws without touching any provider adapter. -/
theorem claim_C5_cloud_sentinel_fails_fast_witness :
    (selectOptimalTechnology (fun _ _ => .threw) (fun _ => false)
        "conversation" []).1 = cloudSentinel "conversation" ∧
    initializeAI (fun _ _ => .threw) (fun _ => false)
        (fun _ => ⟨fun _ => .ok (true, true)⟩) "conversation" [] =
      (.error "No compatible on-device AI technology available", [], []) :=
  ⟨rfl, claim_C5_cloud_sentinel_fails_fast (fun _ _ => .threw) (fun _ => false)
    (fun _ => ⟨fun _ => .ok (true, true)⟩) "conversation" [] rfl⟩

/-- **C4 (counterexample).** C4 claims a probe that fails by reaching the
30000 ms ceiling leaves the benchmark record unchanged. Running the
selector on an all-capable device with every probe completing in exactly
30000 ms, every probe is a failure (the run falls through to the cloud
sentinel), yet the benchmark record gains the entries
`transformers ↦ 30000` and `webllm ↦ 30000`: `benchmarkTechnology`
records the latency before comparing it to the ceiling. -/
theorem claim_C4_counterexample_ceiling_failure_records :
    (selectOptimalTechnology (fun _ _ => .completed 30000) (fun _ => true)
        "conversation" []).1 = cloudSentinel "conversation" ∧
    (∀ tm ∈ (selectOptimalTechnology (fun _ _ => .completed 30000) (fun _ => true)
        "conversation" []).2.2,
      ¬probeSuccessful (fun _ _ => .completed 30000) tm.1 tm.2) ∧
    (selectOptimalTechnology (fun _ _ => .completed 30000) (fun _ => true)
        "conversation" []).2.1 = [("transformers", 30000), ("webllm", 30000)] ∧
    [("transformers", 30000), ("webllm", 30000)] ≠ ([] : BenchMap) := by
  refine ⟨rfl, ?_, rfl, by decide⟩
  intro tm _
  rintro ⟨-, lat, hl, hlt⟩
  injection hl with h
  omega

/-- **C4 (amended).** The benchmark record is mutated only by probes that
complete without throwing — including a probe that completes at or above
the 30000 ms ceiling, which counts as a failure yet still records its
measured latency. A probe that throws leaves the record unchanged, and
after any sequence of selector calls starting from an empty record, an
entry exists for a technology only if that technology was probed at
least once. -/
theorem claim_C4_benchmark_mutation (probe : ProbeOracle) (caps : CapabilitySet)
    (reqCap : String) (bm : BenchMap) :
    (∀ t, bmGet (selectOptimalTechnology probe caps reqCap bm).2.1 t = bmGet bm t ∨
      ∃ mId lat, (t, mId) ∈ (selectOptimalTechnology probe caps reqCap bm).2.2 ∧
        probe t mId = .completed lat ∧
        bmGet (selectOptimalTechnology probe caps reqCap bm).2.1 t = some lat) ∧
    ((∀ tm ∈ (selectOptimalTechnology probe caps reqCap bm).2.2,
        probe tm.1 tm.2 = .threw) →
      ∀ t, bmGet (selectOptimalTechnology probe caps reqCap bm).2.1 t = bmGet bm t) ∧
    (∀ (calls : List SelectorCall) (t : String),
      bmGet (runCalls calls []).1 t ≠ none →
      ∃ mId, (t, mId) ∈ (runCalls calls []).2) := by
  have hdef : ∀ bm', selectOptimalTechnology probe caps reqCap bm' =
      selLoop probe caps reqCap (suitableTechs technologyStack reqCap) bm' := fun _ => rfl
  have hone : ∀ (p : ProbeOracle) (c : CapabilitySet) (rq : String) (bm' : BenchMap) (t : String),
      bmGet (selectOptimalTechnology p c rq bm').2.1 t = bmGet bm' t ∨
      ∃ mId lat, (t, mId) ∈ (selectOptimalTechnology p c rq bm').2.2 ∧
        p t mId = .completed lat ∧
        bmGet (selectOptimalTechnology p c rq bm').2.1 t = some lat := by
    intro p c rq bm' t
    exact (selLoop_spec p c rq (suitableTechs technologyStack rq) bm').2.2 t
  refine ⟨hone probe caps reqCap bm, ?_, ?_⟩
  · intro hthrew t
    rcases hone probe caps reqCap bm t with h | ⟨mId, lat, hm, hp, -⟩
    · exact h
    · rw [hthrew (t, mId) hm] at hp
      exact absurd hp (by simp)
  · have key : ∀ (calls : List SelectorCall) (bm' : BenchMap) (t : String),
        bmGet (runCalls calls bm').1 t = bmGet bm' t ∨
        ∃ mId, (t, mId) ∈ (runCalls calls bm').2 := by
      intro calls
      induction calls with
      | nil => intro bm' t; left; rfl
      | cons c cs ih =>
        intro bm' t
        have hrc : runCalls (c :: cs) bm' =
          ((runCalls cs (selectOptimalTechnology c.probe c.caps c.reqCap bm').2.1).1,
           (selectOptimalTechnology c.probe c.caps c.reqCap bm').2.2 ++
             (runCalls cs (selectOptimalTechnology c.probe c.caps c.reqCap bm').2.1).2) := rfl
        rw [hrc]
        rcases ih (selectOptimalTechnology c.probe c.caps c.reqCap bm').2.1 t with h | ⟨mId, hm⟩
        · rcases hone c.probe c.caps c.reqCap bm' t with h' | ⟨mId, lat, hm', hp, hg⟩
          · left
            exact h.trans h'
          · right
            exact ⟨mId, List.mem_append_left _ hm'⟩
        · right
          exact ⟨mId, List.mem_append_right _ hm⟩
    intro calls t hne
    rcases key calls [] t with h | ⟨mId, hm⟩
    · exact absurd h (by simpa using hne)
    · exact ⟨mId, hm⟩

/-- Closed instance of the amended C4: a run in which every probe throws
leaves a pre-existing benchmark record untouched. -/
theorem claim_C4_benchmark_mutation_witness :
    bmGet (selectOptimalTechnology (fun _ _ => .threw) (fun _ => true)
        "conversation" [("x", 5)]).2.1 "transformers" =
      bmGet [("x", 5)] "transformers" :=
  (claim_C4_benchmark_mutation (fun _ _ => .threw) (fun _ => true)
    "conversation" [("x", 5)]).2.1 (fun _ _ => rfl) "transformers"

/-- **C2.** For every id returned by `store` with a given type (explicit
or `'auto'`-inferred), a subsequent `retrieve` of that id with the
matching type resolves with a `data` field equal to the originally
stored input, whatever the encryption level among
`none`/`metadata`/`full`; and with level `full` and a generated key the
value held in the in-memory store is a transformed string different from
the input, yet `retrieve` still reconstructs the original value. -/
theorem claim_C2_store_retrieve_roundtrip (cfg : StorageConfig) (st : HybridState)
    (data : JsonValue) (opts : StoreOptions) (now now2 : Nat) (rand : String)
    (source : RetrieveSource) (pconns : Option (List String))
    (hlv : cfg.encryptionLevel = "none" ∨ cfg.encryptionLevel = "metadata" ∨
      cfg.encryptionLevel = "full") :
    retrieve cfg (store cfg st data opts now rand).state
        (store cfg st data opts now rand).id
        ⟨some (resolvedType opts data), source, pconns⟩ now2 =
      .ok (⟨(store cfg st data opts now rand).id, data, opts.metadata, now⟩,
        (store cfg st data opts now rand).state) ∧
    (cfg.encryptionLevel = "full" → cfg.hasKey = true →
      ∃ s : String,
        getLocal (store cfg st data opts now rand).state
            (store cfg st data opts now rand).id (some (resolvedType opts data)) =
          some ⟨(store cfg st data opts now rand).id, .str s,
            storedMeta cfg opts.metadata, now⟩ ∧
        JsonValue.str s ≠ data) := by
  have hid := store_id_eq cfg st data opts now rand
  have hstate := store_state_eq cfg st data opts now rand
  have hget : getLocal (store cfg st data opts now rand).state
      (store cfg st data opts now rand).id (some (resolvedType opts data)) =
      some ⟨(store cfg st data opts now rand).id, storedData cfg data,
        storedMeta cfg opts.metadata, now⟩ := by
    rw [hstate, hid]
    exact getLocal_putItem st (resolvedType opts data) _ _
  constructor
  · exact retrieve_stored_item cfg (store cfg st data opts now rand).state
      (store cfg st data opts now rand).id
      ⟨some (resolvedType opts data), source, pconns⟩ now2 data opts.metadata
      (store cfg st data opts now rand).id now hget
  · intro hfull hkey
    refine ⟨String.mk (encTagL ++ serializeV data), ?_, ?_⟩
    · rw [hget]
      have : storedData cfg data = .str (String.mk (encTagL ++ serializeV data)) := by
        rw [storedData, if_pos ⟨hkey, hfull⟩]
        rfl
      rw [this]
    · intro h
      exact encryptV_ne data h

/-- Closed instance of C2 at level `full` with a key: storing an object
and retrieving it by its inferred type round-trips, while the in-memory
copy is an `encrypted:`-tagged string. -/
theorem claim_C2_store_retrieve_roundtrip_witness :
    (retrieve ⟨"full", true, [], false, []⟩
        (store ⟨"full", true, [], false, []⟩ emptyState (.obj [("a", .num 1)]) {} 5 "r").state
        (store ⟨"full", true, [], false, []⟩ emptyState (.obj [("a", .num 1)]) {} 5 "r").id
        ⟨some (resolvedType {} (.obj [("a", .num 1)])), .all, none⟩ 6 =
      .ok (⟨(store ⟨"full", true, [], false, []⟩ emptyState
              (.obj [("a", .num 1)]) {} 5 "r").id,
          .obj [("a", .num 1)], JsonValue.obj [], 5⟩,
        (store ⟨"full", true, [], false, []⟩ emptyState
          (.obj [("a", .num 1)]) {} 5 "r").state)) ∧
    (∃ s : String,
      getLocal (store ⟨"full", true, [], false, []⟩ emptyState
            (.obj [("a", .num 1)]) {} 5 "r").state
          (store ⟨"full", true, [], false, []⟩ emptyState
            (.obj [("a", .num 1)]) {} 5 "r").id
          (some (resolvedType {} (.obj [("a", .num 1)]))) =
        some ⟨(store ⟨"full", true, [], false, []⟩ emptyState
            (.obj [("a", .num 1)]) {} 5 "r").id, .str s,
          storedMeta ⟨"full", true, [], false, []⟩ (JsonValue.obj []), 5⟩ ∧
      JsonValue.str s ≠ .obj [("a", .num 1)]) :=
  ⟨(claim_C2_store_retrieve_roundtrip ⟨"full", true, [], false, []⟩ emptyState
      (.obj [("a", .num 1)]) {} 5 6 "r" .all none (Or.inr (Or.inr rfl))).1,
   (claim_C2_store_retrieve_roundtrip ⟨"full", true, [], false, []⟩ emptyState
      (.obj [("a", .num 1)]) {} 5 6 "r" .all none (Or.inr (Or.inr rfl))).2 rfl rfl⟩

/-- **C7 (counterexample).** C7 claims an object with both `nodes` and
`edges` fields classifies as graph data. The object
`{nodes: 0, edges: 0}` carries both fields, yet the inference classifies
it as relational: the source tests `data.nodes && data.edges` for
truthiness, not field presence. -/
theorem claim_C7_counterexample_falsy_fields :
    JsonValue.getField (.obj [("nodes", .num 0), ("edges", .num 0)]) "nodes" =
      some (.num 0) ∧
    JsonValue.getField (.obj [("nodes", .num 0), ("edges", .num 0)]) "edges" =
      some (.num 0) ∧
    inferType (.obj [("nodes", .num 0), ("edges", .num 0)]) = .relational ∧
    StoreType.relational ≠ StoreType.graph := by
  refine ⟨rfl, rfl, rfl, by decide⟩

/-- **C7 (amended).** The `'auto'` classification: a nonempty array whose
first element is itself an array classifies as vector data; an object
whose `nodes` and `edges` fields are both present and truthy classifies
as graph data; anything else is relational — in particular
`[[1,2],[3,4]]` classifies as vector, `{nodes: [], edges: []}` as graph,
and `{a: 1}` as relational. -/
theorem claim_C7_auto_type_inference :
    (∀ (inner : List JsonValue) (tailElems : List JsonValue),
      inferType (.arr (.arr inner :: tailElems)) = .vector) ∧
    (∀ fields : List (String × JsonValue),
      JsonValue.truthyOpt (JsonValue.getField (.obj fields) "nodes") = true →
      JsonValue.truthyOpt (JsonValue.getField (.obj fields) "edges") = true →
      inferType (.obj fields) = .graph) ∧
    (∀ d : JsonValue, isNestedArr d = false → isGraphObj d = false →
      inferType d = .relational) ∧
    inferType (.arr [.arr [.num 1, .num 2], .arr [.num 3, .num 4]]) = .vector ∧
    inferType (.obj [("nodes", .arr []), ("edges", .arr [])]) = .graph ∧
    inferType (.obj [("a", .num 1)]) = .relational := by
  refine ⟨?_, ?_, ?_, rfl, rfl, rfl⟩
  · intro inner tailElems
    rfl
  · intro fields hn he
    rw [inferType]
    have h1 : isNestedArr (.obj fields) = false := rfl
    have h2 : isGraphObj (.obj fields) = true := by
      rw [isGraphObj]
      simp [typeofObject, JsonValue.truthy, hn, he]
    rw [h1, h2]
    rfl
  · intro d h1 h2
    rw [inferType, h1, h2]
    rfl

/-- Closed instance of the amended C7: `{nodes: [], edges: []}` has both
fields present and truthy (empty arrays are truthy in JavaScript) and
classifies as graph. -/
theorem claim_C7_auto_type_inference_witness :
    inferType (.obj [("nodes", .arr []), ("edges", .arr [])]) = .graph :=
  claim_C7_auto_type_inference.2.1 [("nodes", .arr []), ("edges", .arr [])] rfl rfl

/-- **C8 (counterexample).** C8 claims `sync` of an id with no local
copy fails with the not-found condition regardless of the number of
configured connectors, including zero. With zero connectors the source
returns `[]` before ever looking the id up: `sync` resolves successfully
for a missing id. -/
theorem claim_C8_counterexample_zero_connectors :
    getLocal emptyState "missing" none = none ∧
    syncOp ⟨"metadata", false, [], false, []⟩ emptyState "missing" none = .ok [] := by
  exact ⟨rfl, rfl⟩

/-- **C8 (amended).** Whenever at least one connector is configured,
`sync` of an id with no copy in any of the three in-memory stores throws
the not-found condition and never reports success; with zero connectors
it instead resolves immediately with an empty result list, without
checking the id at all. -/
theorem claim_C8_sync_not_found (cfg : StorageConfig) (st : HybridState) (id : String)
    (targets : Option (List String)) (hc : cfg.connectors ≠ [])
    (hv : alGet st.vectorStore id = none) (hg : alGet st.graphStore id = none)
    (hr : alGet st.relationalStore id = none) :
    syncOp cfg st id targets =
      .error ("Item with id " ++ id ++
        " not found in local storage for synchronisation") ∧
    (∀ cfg0 : StorageConfig, cfg0.connectors = [] →
      syncOp cfg0 st id targets = .ok []) := by
  constructor
  · rw [syncOp.eq_def]
    have hne : cfg.connectors.isEmpty = false := by
      cases h : cfg.connectors with
      | nil => exact absurd h hc
      | cons a l => rfl
    rw [hne]
    simp only [Bool.false_eq_true, if_false, hv, hg, hr]
    rfl
  · intro cfg0 h0
    rw [syncOp.eq_def, h0]
    rfl

/-- Closed instance of the amended C8: with one configured connector,
syncing an unknown id throws the not-found condition. -/
theorem claim_C8_sync_not_found_witness :
    syncOp ⟨"metadata", false, [⟨"c1", true, fun _ => .ok ⟨true, none, none⟩, none⟩],
        false, []⟩ emptyState "missing" none =
      .error "Item with id missing not found in local storage for synchronisation" :=
  (claim_C8_sync_not_found
    ⟨"metadata", false, [⟨"c1", true, fun _ => .ok ⟨true, none, none⟩, none⟩],
      false, []⟩
    emptyState "missing" none (List.cons_ne_nil _ _) rfl rfl rfl).1

/-- **C9.** `store` with `skipSync: true` dispatches no connector
fan-out at all — no connector's `store` is invoked and the sync report
is absent — and only the in-memory store matching the resolved type is
modified: the other two stores are untouched and the matching store
gains exactly the new item. -/
theorem claim_C9_skipSync_frame (cfg : StorageConfig) (st : HybridState)
    (data : JsonValue) (opts : StoreOptions) (now : Nat) (rand : String)
    (h : opts.skipSync = true) :
    (store cfg st data opts now rand).syncReport = none ∧
    (resolvedType opts data ≠ .vector →
      (store cfg st data opts now rand).state.vectorStore = st.vectorStore) ∧
    (resolvedType opts data ≠ .graph →
      (store cfg st data opts now rand).state.graphStore = st.graphStore) ∧
    (resolvedType opts data ≠ .relational →
      (store cfg st data opts now rand).state.relationalStore = st.relationalStore) ∧
    getLocal (store cfg st data opts now rand).state
        (store cfg st data opts now rand).id (some (resolvedType opts data)) =
      some ⟨(store cfg st data opts now rand).id, storedData cfg data,
        storedMeta cfg opts.metadata, now⟩ := by
  have hstate := store_state_eq cfg st data opts now rand
  have hid := store_id_eq cfg st data opts now rand
  refine ⟨?_, ?_, ?_, ?_, ?_⟩
  · simp only [store, h]
    rw [if_neg (fun hh => by simpa using hh.2)]
  · intro hne
    rw [hstate]
    cases hrt : resolvedType opts data with
    | vector => exact absurd hrt hne
    | graph => rfl
    | relational => rfl
  · intro hne
    rw [hstate]
    cases hrt : resolvedType opts data with
    | vector => rfl
    | graph => exact absurd hrt hne
    | relational => rfl
  · intro hne
    rw [hstate]
    cases hrt : resolvedType opts data with
    | vector => rfl
    | graph => rfl
    | relational => exact absurd hrt hne
  · rw [hstate, hid]
    exact getLocal_putItem st (resolvedType opts data) _ _

/-- Closed instance of C9: with a configured connector and
`skipSync: true`, no fan-out report exists and the non-matching stores
stay empty. -/
theorem claim_C9_skipSync_frame_witness :
    (store ⟨"metadata", false, [⟨"c1", true, fun _ => .ok ⟨true, none, none⟩, none⟩],
        false, []⟩ emptyState (.obj [("a", .num 1)])
      ⟨none, .obj [], none, true, none⟩ 5 "r").syncReport = none ∧
    (store ⟨"metadata", false, [⟨"c1", true, fun _ => .ok ⟨true, none, none⟩, none⟩],
        false, []⟩ emptyState (.obj [("a", .num 1)])
      ⟨none, .obj [], none, true, none⟩ 5 "r").state.vectorStore = emptyState.vectorStore :=
  ⟨(claim_C9_skipSync_frame _ emptyState (.obj [("a", .num 1)])
      ⟨none, .obj [], none, true, none⟩ 5 "r" rfl).1,
   (claim_C9_skipSync_frame
      ⟨"metadata", false, [⟨"c1", true, fun _ => .ok ⟨true, none, none⟩, none⟩],
        false, []⟩ emptyState (.obj [("a", .num 1)])
      ⟨none, .obj [], none, true, none⟩ 5 "r" rfl).2.1 (by decide)⟩

theorem get_map_local {α β : Type} (f : α → β) (l : List α) :
    ∀ (i : Nat) (hi : i < l.length) (hj : i < (l.map f).length),
    (l.map f).get ⟨i, hj⟩ = f (l.get ⟨i, hi⟩) := by
  induction l with
  | nil => intro i hi _; exact absurd hi (by simp)
  | cons a l ih =>
    intro i hi hj
    cases i with
    | zero => rfl
    | succ n => exact ih n (by simpa using hi) (by simpa using hj)

/-- **C6.** When `store` runs with `awaitSync` resolved to true (its own
option or the store-wide default), it resolves only after the connector
fan-out has settled: its outcome carries one settled entry per targeted
connector, in order. The fan-out is all-settle — each targeted
connector's entry is determined by that connector's own `store` outcome
alone, a throwing connector yields a failure entry (it neither prevents
the other targeted connectors from being invoked nor makes `store` or
the fan-out reject, both being total here because the source catches
per-connector rejections), and success or failure is reported per
connector individually. -/
theorem claim_C6_awaitSync_all_settle (cfg : StorageConfig) (st : HybridState)
    (data : JsonValue) (opts : StoreOptions) (now : Nat) (rand : String)
    (targeted : List StorageConnector) (payload : StorageSyncPayload)
    (hc : cfg.connectors ≠ []) (hs : opts.skipSync = false)
    (ha : opts.awaitSync.getD cfg.awaitSyncByDefault = true)
    (htg : targeted = targetedConnectors cfg.connectors
      (if (opts.syncTargets.getD cfg.defaultSyncTargets).isEmpty then none
       else some (opts.syncTargets.getD cfg.defaultSyncTargets)))
    (hpl : payload = ⟨storeId (resolvedType opts data) now rand,
      resolvedType opts data, storedData cfg data, storedMeta cfg opts.metadata,
      now, true⟩) :
    (store cfg st data opts now rand).awaited = true ∧
    ∃ rs, (store cfg st data opts now rand).syncReport = some rs ∧
      rs.length = targeted.length ∧
      ∀ i, ∀ hi : i < targeted.length, ∃ hj : i < rs.length,
        ((∃ r, (targeted.get ⟨i, hi⟩).store payload = .ok r ∧
            rs.get ⟨i, hj⟩ =
              ⟨(targeted.get ⟨i, hi⟩).id, r.success, r.error, r.location⟩) ∨
         (∃ e, (targeted.get ⟨i, hi⟩).store payload = .error e ∧
            rs.get ⟨i, hj⟩ = ⟨(targeted.get ⟨i, hi⟩).id, false, some e, none⟩)) := by
  have hcc : ¬cfg.connectors.isEmpty = true := by
    cases h : cfg.connectors with
    | nil => exact absurd h hc
    | cons a l => simp
  have hawait : (store cfg st data opts now rand).awaited = true := by
    simp only [store]
    split
    · exact ha
    · exact ha
  have hrep : (store cfg st data opts now rand).syncReport =
      some (syncPayloadAcrossConnectors payload cfg.connectors
        (if (opts.syncTargets.getD cfg.defaultSyncTargets).isEmpty then none
         else some (opts.syncTargets.getD cfg.defaultSyncTargets))) := by
    rw [hpl]
    simp only [store]
    rw [if_pos ⟨hcc, hs⟩]
  have hmap : syncPayloadAcrossConnectors payload cfg.connectors
      (if (opts.syncTargets.getD cfg.defaultSyncTargets).isEmpty then none
       else some (opts.syncTargets.getD cfg.defaultSyncTargets)) =
      targeted.map (fun c =>
        match c.store payload with
        | .ok r => (⟨c.id, r.success, r.error, r.location⟩ : ConnectorSyncResult)
        | .error e => (⟨c.id, false, some e, none⟩ : ConnectorSyncResult)) := by
    rw [syncPayloadAcrossConnectors.eq_def, htg]
    rw [if_neg (by simpa using hcc)]
    rfl
  refine ⟨hawait, _, hrep.trans (congrArg some hmap), by rw [List.length_map], ?_⟩
  intro i hi
  have hj : i < (targeted.map (fun c =>
      match c.store payload with
      | .ok r => (⟨c.id, r.success, r.error, r.location⟩ : ConnectorSyncResult)
      | .error e => (⟨c.id, false, some e, none⟩ : ConnectorSyncResult))).length := by
    rw [List.length_map]
    exact hi
  refine ⟨hj, ?_⟩
  rw [get_map_local _ targeted i hi hj]
  cases hst : (targeted.get ⟨i, hi⟩).store payload with
  | ok r =>
    left
    exact ⟨r, rfl, rfl⟩
  | error e =>
    right
    exact ⟨e, rfl, rfl⟩

/-- Closed instance of C6: two auto-sync connectors, one of which
throws; the awaited store still resolves, with the fan-out settled. -/
theorem claim_C6_awaitSync_all_settle_witness :
    (store ⟨"none", false,
        [⟨"ok1", true, fun _ => .ok ⟨true, none, none⟩, none⟩,
         ⟨"bad", true, fun _ => .error "boom", none⟩], true, []⟩
      emptyState (.num 1) {} 7 "r").awaited = true :=
  (claim_C6_awaitSync_all_settle
    ⟨"none", false,
      [⟨"ok1", true, fun _ => .ok ⟨true, none, none⟩, none⟩,
       ⟨"bad", true, fun _ => .error "boom", none⟩], true, []⟩
    emptyState (.num 1) {} 7 "r" _ _
    (List.cons_ne_nil _ _) rfl rfl rfl rfl).1
